import Mathlib

/-!
Verification development for the NetOps device-connectivity and
health-monitoring engine.  Text is modelled as `List Char` (`Str`), machine
floats as exact rationals, timestamps as integers, and Python dictionaries as
ordered association lists.  Each definition mirrors the corresponding Python
function of the repository; external collaborators (SSH sessions, the Django
ORM, environment variables) are supplied explicitly as parameters or as a
`World` record of call outcomes.
-/

/-- Text is modelled as a list of characters. -/
abbrev Str := List Char

namespace PyStr

/-- ASCII lower-casing of one character (model of `str.lower` on ASCII data). -/
def lowerC (c : Char) : Char :=
  if 'A' ≤ c ∧ c ≤ 'Z' then Char.ofNat (c.toNat + 32) else c

/-- ASCII upper-casing of one character (model of `str.upper` on ASCII data). -/
def upperC (c : Char) : Char :=
  if 'a' ≤ c ∧ c ≤ 'z' then Char.ofNat (c.toNat - 32) else c

def lower (s : Str) : Str := s.map lowerC

def upper (s : Str) : Str := s.map upperC

/-- Python `str.strip` whitespace class (ASCII part). -/
def isWs (c : Char) : Bool :=
  c = ' ' ∨ c = '\t' ∨ c = '\n' ∨ c = '\r' ∨ c = Char.ofNat 11 ∨ c = Char.ofNat 12

/-- `str.lstrip()`. -/
def lstrip (s : Str) : Str := s.dropWhile isWs

/-- `str.rstrip()`. -/
def rstrip (s : Str) : Str := (s.reverse.dropWhile isWs).reverse

/-- `str.strip()`. -/
def strip (s : Str) : Str := lstrip (rstrip s)

/-- Does `s` start with `p` (`str.startswith`)? -/
def startsWithStr : Str → Str → Bool
  | _, [] => true
  | [], _ :: _ => false
  | a :: as, b :: bs => a = b && startsWithStr as bs

/-- Python substring containment `p in s`. -/
def containsSub (s p : Str) : Bool :=
  (List.range (s.length + 1)).any fun i => startsWithStr (s.drop i) p

/-- Does `s` end with character `c` (`str.endswith` on a one-char suffix)? -/
def endsWithC (s : Str) (c : Char) : Bool := s.getLast? = some c

theorem length_takeWhile_le' {α : Type} (p : α → Bool) (l : List α) :
    (l.takeWhile p).length ≤ l.length := by
  induction l with
  | nil => simp [List.takeWhile]
  | cons x xs ih =>
    rw [List.takeWhile_cons]
    split
    · simp only [List.length_cons]; omega
    · simp

theorem length_dropWhile_le' {α : Type} (p : α → Bool) (l : List α) :
    (l.dropWhile p).length ≤ l.length := by
  induction l with
  | nil => simp [List.dropWhile]
  | cons x xs ih =>
    rw [List.dropWhile_cons]
    split
    · simp only [List.length_cons]; omega
    · simp

/-- `str.split()` scanning loop; the fuel dominates the string length, so it
is never exhausted when called through `splitWs`.  (Structural recursion on
the fuel keeps the definition kernel-reducible.) -/
def splitWsGo : ℕ → Str → List Str
  | 0, _ => []
  | Nat.succ _, [] => []
  | Nat.succ f, c :: cs =>
    if isWs c then splitWsGo f cs
    else (c :: cs.takeWhile (fun d => !isWs d)) :: splitWsGo f (cs.dropWhile (fun d => !isWs d))

/-- `str.split()` — split on whitespace runs, dropping empty pieces. -/
def splitWs (s : Str) : List Str := splitWsGo s.length s

/-- `str.replace(pat, "")` scanning loop (fuel-structural). -/
def deleteAllGo : ℕ → Str → Str → Str
  | 0, _, _ => []
  | Nat.succ _, [], _ => []
  | Nat.succ f, c :: cs, pat =>
    if pat ≠ [] ∧ startsWithStr (c :: cs) pat then deleteAllGo f ((c :: cs).drop pat.length) pat
    else c :: deleteAllGo f cs pat

/-- `str.replace(pat, "")` — delete every occurrence of a nonempty pattern. -/
def deleteAll (s pat : Str) : Str := deleteAllGo s.length s pat

/-- Count occurrences of one character (`str.count` on a single char). -/
def countC (s : Str) (c : Char) : ℕ := s.count c

/-- Python `str.isdigit` restricted to ASCII digits (empty string is `false`). -/
def isDigitStr (s : Str) : Bool := s ≠ [] && s.all (fun c => '0' ≤ c && c ≤ '9')

/-- Numeric value of an ASCII digit run. -/
def digitsToNat (s : Str) : ℕ := s.foldl (fun n c => n * 10 + (c.toNat - '0'.toNat)) 0

/-- Join a list of strings with a separator (`sep.join`). -/
def joinSep (sep : Str) : List Str → Str
  | [] => []
  | [x] => x
  | x :: y :: rest => x ++ sep ++ joinSep sep (y :: rest)

/-- Lexicographic comparison used by Python `sorted` on strings. -/
def strLe (a b : Str) : Bool :=
  match a, b with
  | [], _ => true
  | _ :: _, [] => false
  | x :: xs, y :: ys => if x = y then strLe xs ys else decide (x < y)

/-- Insertion sort with `strLe` (model of `sorted`). -/
def insertSorted (x : Str) : List Str → List Str
  | [] => [x]
  | y :: ys => if strLe x y then x :: y :: ys else y :: insertSorted x ys

def sortStrs (l : List Str) : List Str := l.foldr insertSorted []

/-- `str.splitlines()` scanning loop (fuel-structural). -/
def splitLinesGo : ℕ → Str → List Str
  | 0, _ => []
  | Nat.succ _, [] => []
  | Nat.succ f, c :: cs =>
    let tk := (c :: cs).takeWhile (· ≠ '\n')
    tk :: splitLinesGo f ((c :: cs).drop (tk.length + 1))

/-- `str.splitlines()` for newline-terminated text (no trailing empty piece). -/
def splitLines (s : Str) : List Str := splitLinesGo s.length s

def isDig (c : Char) : Bool := '0' ≤ c && c ≤ '9'

/-! Position parsers used to model the specific regular expressions that the
source applies with `re.search`; every pattern in the source is
backtracking-free (a greedy run is always followed by a character that cannot
extend the run), so each is an explicit left-to-right scan. -/

/-- Match a literal at position `i`, returning the next position. -/
def litAt (t : Str) (i : ℕ) (lit : Str) : Option ℕ :=
  if startsWithStr (t.drop i) lit then some (i + lit.length) else none

/-- End of the whitespace run starting at `i` (models `\s*`). -/
def wsRun (t : Str) (i : ℕ) : ℕ := i + ((t.drop i).takeWhile isWs).length

/-- `\s+`: at least one whitespace character. -/
def wsPlusAt (t : Str) (i : ℕ) : Option ℕ :=
  let j := wsRun t i
  if i < j then some j else none

/-- `(\d+)` greedy: the maximal digit run at `i` with its value. -/
def digitRunAt (t : Str) (i : ℕ) : Option (ℕ × ℕ) :=
  let run := (t.drop i).takeWhile isDig
  if run.isEmpty then none else some (digitsToNat run, i + run.length)

/-- `(\S+)` greedy: the maximal non-whitespace run at `i`. -/
def nonWsRunAt (t : Str) (i : ℕ) : Option (Str × ℕ) :=
  let run := (t.drop i).takeWhile (fun c => !isWs c)
  if run.isEmpty then none else some (run, i + run.length)

/-- Word character for `\b` boundaries (`[A-Za-z0-9_]`). -/
def isWordC (c : Char) : Bool :=
  ('a' ≤ c && c ≤ 'z') || ('A' ≤ c && c ≤ 'Z') || isDig c || c = '_'

/-- Is there a `\b` boundary just before position `i` (for a word char at `i`)? -/
def boundaryBefore (t : Str) (i : ℕ) : Bool :=
  i = 0 || (match t.get? (i - 1) with
            | some c => !isWordC c
            | none => true)

/-- Is there a `\b` boundary just after position `i` (for a word char at `i-1`)? -/
def boundaryAfter (t : Str) (i : ℕ) : Bool :=
  match t.get? i with
  | some c => !isWordC c
  | none => true

end PyStr

namespace Monitor

open PyStr

/-! ### CPU hysteresis counters (monitor_health.py lines 281-291)

The per-sample counter update: a connection-failure sentinel (`cpu < 0`)
counts as a low observation, a sample at or above the raise threshold counts
as a high observation, everything else counts as a low observation. -/

/-- One hysteresis-counter update for a polled sample.  Returns the new
`(high_counts[alias], low_counts[alias])` pair. -/
def cpuCounts (threshold : ℚ) (cpu : ℚ) (hc lc : ℕ) : ℕ × ℕ :=
  if cpu < 0 then (0, lc + 1)
  else if threshold ≤ cpu then (hc + 1, 0)
  else (0, lc + 1)

/-! ### Alert records (the `HealthAlert` persistence collaborator)

The database is a list of alert records with the newest record first, so that
`filter(...).order_by("-created_at").first()` is the head of the filter. -/

/-- One `HealthAlert` row; `aname` models the `alias` column (`alias` is a
Lean keyword). -/
structure AlertRec where
  aname : Str
  category : Str
  createdAt : ℤ
  clearedAt : Option ℤ
  deriving DecidableEq, Repr

abbrev AlertDB := List AlertRec

def cpuCat : Str := "cpu".toList

def loopCat : Str := "loop".toList

/-- Is the record an uncleared (active) alert for `(a, c)`? -/
def isActiveFor (a c : Str) (r : AlertRec) : Bool :=
  r.aname = a && r.category = c && r.clearedAt = none

/-- `HealthAlert.objects.filter(alias=a, category=c, cleared_at__isnull=True)
.order_by("-created_at").first()`. -/
def latestActive (db : AlertDB) (a c : Str) : Option AlertRec :=
  (db.filter (isActiveFor a c)).head?

/-- Number of uncleared alerts stored for `(a, c)`. -/
def activeCount (db : AlertDB) (a c : Str) : ℕ :=
  (db.filter (isActiveFor a c)).length

/-- CPU alert raise step (monitor_health.py lines 293-321).  Given the updated
high counter and the sample, checks the raise condition, queries the active
record, applies the cooldown disjunction and creates a record (prepending it,
i.e. it becomes the newest).  Returns the database and the updated
`last_cpu_alert_at[alias]` entry. -/
def cpuRaise (breach : ℕ) (cooldown : ℤ) (threshold : ℚ) (a : Str)
    (hc : ℕ) (cpu : ℚ) (now : ℤ) (lastAt : Option ℤ) (db : AlertDB) :
    AlertDB × Option ℤ :=
  if breach ≤ hc ∧ threshold ≤ cpu then
    let active := latestActive db a cpuCat
    let condLast : Bool := match lastAt with
      | some t => decide (cooldown ≤ now - t)
      | none => false
    let condActive : Bool := match active with
      | some r => decide (cooldown ≤ now - r.createdAt)
      | none => false
    if active.isNone || condLast || condActive then
      ({ aname := a, category := cpuCat, createdAt := now, clearedAt := none } :: db, some now)
    else (db, lastAt)
  else (db, lastAt)

/-- Set `cleared_at` on the newest active `(a, c)` record, if any. -/
def clearFirstActive (db : AlertDB) (a c : Str) (now : ℤ) : AlertDB :=
  match db with
  | [] => []
  | r :: rest =>
    if isActiveFor a c r then { r with clearedAt := some now } :: rest
    else r :: clearFirstActive rest a c now

/-- CPU alert clear step (monitor_health.py lines 323-348).  The clear
condition requires a sample inside the clear band (`0 ≤ cpu ≤ clearTh`), so a
connection-failure sentinel never clears. -/
def cpuClear (clearConsec : ℕ) (clearTh : ℚ) (a : Str)
    (lc : ℕ) (cpu : ℚ) (now : ℤ) (db : AlertDB) : AlertDB :=
  if clearConsec ≤ lc ∧ 0 ≤ cpu ∧ cpu ≤ clearTh then
    match latestActive db a cpuCat with
    | none => db
    | some _ => clearFirstActive db a cpuCat now
  else db

/-! ### Loop detection (monitor_health.py `detect_loops`, lines 102-124)

The neighbor graph is an ordered association list (Python `dict` keeps
insertion order); the recursion carries explicit fuel since the Python
recursion terminates through the shared `seen` set.  `fuelFor` is larger than
the number of nodes ever visitable, so the fuel never runs out on the
concrete graphs evaluated here, and the soundness theorem below holds for
every fuel value. -/

abbrev Graph := List (Str × List Str)

/-- `neighbors_map.get(node, set())` (neighbor sets modelled as lists). -/
def lookupNbrs : Graph → Str → List Str
  | [], _ => []
  | (k, v) :: rest, n => if k = n then v else lookupNbrs rest n

/-- A reported cycle `(start, end, path)`. -/
abbrev LoopRec := Str × Str × List Str

/-- DFS state: the shared `seen` set and the accumulated `cycles` list. -/
abbrev DfsSt := List Str × List LoopRec

/-- `path[path.index(nxt):]` — the suffix of `path` from the first occurrence
of `x`. -/
def sufFrom (l : List Str) (x : Str) : List Str :=
  match l with
  | [] => []
  | y :: ys => if y = x then y :: ys else sufFrom ys x

/-- `dfs(node, parent, path)` of `detect_loops`: adds the node to `seen`,
then folds the loop body over the node's neighbors.  The recursion is
structural on the fuel (so the definition is kernel-reducible); the fuel
strictly dominates the recursion depth for the fuel chosen by
`detectLoops`. -/
def dfsVisit (g : Graph) : ℕ → Str → Option Str → List Str → DfsSt → DfsSt
  | 0, _, _, _, st => st
  | Nat.succ f, n, p, path, st =>
    (lookupNbrs g n).foldl
      (fun st' nxt =>
        if some nxt = p then st'
        else if nxt ∈ path then (st'.1, st'.2 ++ [(nxt, n, sufFrom path nxt ++ [nxt])])
        else if nxt ∈ st'.1 then st'
        else dfsVisit g f nxt (some n) (path ++ [nxt]) st')
      (n :: st.1, st.2)

/-- Fuel that the concrete evaluations can never exhaust. -/
def fuelFor (g : Graph) : ℕ :=
  g.length + (g.map (fun e => e.2.length)).sum + 1

/-- Directed edge of the neighbor map. -/
def edgeG (g : Graph) (a b : Str) : Prop := b ∈ lookupNbrs g a

/-- A directed cycle on at least three distinct nodes. -/
def ProperCycle (g : Graph) (c : List Str) : Prop :=
  3 ≤ c.length ∧ c.Nodup ∧ List.Chain' (edgeG g) c ∧
  ∃ x y, c.head? = some x ∧ c.getLast? = some y ∧ edgeG g y x

/-- Acyclic, tree-shaped neighbor graph: no self-loop and no directed cycle
of three or more distinct nodes.  Both representations of a tree used by the
monitor — one-directional child edges and symmetric undirected adjacency —
satisfy this (a symmetric tree has only the trivial two-node back-and-forth
walks, which are not `ProperCycle`s). -/
def TreeShaped (g : Graph) : Prop :=
  (∀ a, ¬ edgeG g a a) ∧ ∀ c, ¬ ProperCycle g c

/-- The invariant carried by the DFS of `detect_loops`: the current `path` is
a duplicate-free directed path ending at the current node, whose second-last
entry is the parent. -/
def GoodPath (g : Graph) (n : Str) (p : Option Str) (path : List Str) : Prop :=
  path ≠ [] ∧ path.getLast? = some n ∧ path.Nodup ∧ List.Chain' (edgeG g) path ∧
  (match p with
   | none => path = [n]
   | some q => path.dropLast.getLast? = some q)

/-- `detect_loops(neighbors_map)` — undirected cycle detection by DFS over
the per-cycle neighbor graph. -/
def detectLoops (g : Graph) : List LoopRec :=
  ((g.map Prod.fst).foldl
    (fun st n => if n ∈ st.1 then st else dfsVisit g (fuelFor g) n none [n] st)
    ([], [])).2

/-! ### Loop alert raise / auto-clear (monitor_health.py lines 361-408) -/

/-- `"::".join(sorted(path))` — the direction-independent cycle signature. -/
def cycleSig (path : List Str) : Str :=
  PyStr.joinSep "::".toList (PyStr.sortStrs path)

def lookupSig : List (Str × ℤ) → Str → Option ℤ
  | [], _ => none
  | (k, v) :: rest, s => if k = s then some v else lookupSig rest s

def setSig (m : List (Str × ℤ)) (s : Str) (t : ℤ) : List (Str × ℤ) :=
  match m with
  | [] => [(s, t)]
  | (k, v) :: rest => if k = s then (k, t) :: rest else (k, v) :: setSig rest s t

/-- Raise step for one detected cycle (lines 367-393): suppress within the
per-signature cooldown, otherwise create a loop alert attributed to the first
node of the path and stamp the signature. -/
def loopRaiseOne (loopCooldown : ℤ) (now : ℤ) (acc : AlertDB × List (Str × ℤ))
    (c : LoopRec) : AlertDB × List (Str × ℤ) :=
  let path := c.2.2
  let sig := cycleSig path
  let skip : Bool := match lookupSig acc.2 sig with
    | some t => decide (now - t < loopCooldown)
    | none => false
  if skip then acc
  else ({ aname := path.headD [], category := loopCat, createdAt := now,
          clearedAt := none } :: acc.1, setSig acc.2 sig now)

/-- Set `cleared_at = now` on every active loop alert (lines 394-404). -/
def clearAllLoop (db : AlertDB) (now : ℤ) : AlertDB :=
  db.map fun r =>
    if r.category = loopCat ∧ r.clearedAt = none then { r with clearedAt := some now } else r

/-- The loop-detection section of one monitoring cycle (lines 361-408):
only runs when the neighbor graph has at least 3 entries; raises per detected
cycle (capped at 5) with per-signature cooldown; auto-clears every active
loop alert when no cycle was seen. -/
def loopSection (loopCooldown : ℤ) (g : Graph) (sigTimes : List (Str × ℤ))
    (db : AlertDB) (now : ℤ) : AlertDB × List (Str × ℤ) :=
  if 3 ≤ g.length then
    let shown := (detectLoops g).take 5
    let raised := shown.foldl (loopRaiseOne loopCooldown now) (db, sigTimes)
    if shown.isEmpty then (clearAllLoop raised.1 now, raised.2) else raised
  else (db, sigTimes)

/-! ### CPU / neighbor output parsing (monitor_health.py lines 22-46, 134-145) -/

/-- `re.search(r"one minute:\s*(\d+)%", out, re.I)` on lower-cased text. -/
def searchOneMinute (t : Str) : Option ℕ :=
  (List.range (t.length + 1)).findSome? fun i =>
    (PyStr.litAt t i "one minute:".toList).bind fun j =>
    (PyStr.digitRunAt t (PyStr.wsRun t j)).bind fun vk =>
    if t.get? vk.2 = some '%' then some vk.1 else none

/-- `re.search(r"(\d+)%", out)`. -/
def searchPct (t : Str) : Option ℕ :=
  (List.range (t.length + 1)).findSome? fun i =>
    (PyStr.digitRunAt t i).bind fun vk =>
    if t.get? vk.2 = some '%' then some vk.1 else none

/-- `re.search(r"CPU\s*Utilization\s*:\s*(\d+)%", out, re.I)` on lower-cased
text. -/
def searchCpuColon (t : Str) : Option ℕ :=
  (List.range (t.length + 1)).findSome? fun i =>
    (PyStr.litAt t i "cpu".toList).bind fun j1 =>
    (PyStr.litAt t (PyStr.wsRun t j1) "utilization".toList).bind fun j2 =>
    (PyStr.litAt t (PyStr.wsRun t j2) ":".toList).bind fun j3 =>
    (PyStr.digitRunAt t (PyStr.wsRun t j3)).bind fun vk =>
    if t.get? vk.2 = some '%' then some vk.1 else none

/-- `re.search(r"CPU\s*Utilization\s+Current\s+(\d+)%", out, re.I)` on
lower-cased text. -/
def searchCpuCurrent (t : Str) : Option ℕ :=
  (List.range (t.length + 1)).findSome? fun i =>
    (PyStr.litAt t i "cpu".toList).bind fun j1 =>
    (PyStr.litAt t (PyStr.wsRun t j1) "utilization".toList).bind fun j2 =>
    (PyStr.wsPlusAt t j2).bind fun j3 =>
    (PyStr.litAt t j3 "current".toList).bind fun j4 =>
    (PyStr.wsPlusAt t j4).bind fun j5 =>
    (PyStr.digitRunAt t j5).bind fun vk =>
    if t.get? vk.2 = some '%' then some vk.1 else none

/-- `parse_cpu_output(vendor, output)`: vendor-specific CPU percentage
extraction.  The extracted value is the matched digit group. -/
def parseCpuOutput (vendor out : Str) : Option ℕ :=
  let vl := PyStr.lower vendor
  if PyStr.containsSub vl "cisco".toList || PyStr.containsSub vl "ios".toList then
    match searchOneMinute (PyStr.lower out) with
    | some v => some v
    | none => searchPct out
  else if PyStr.containsSub vl "aruba".toList || PyStr.containsSub vl "aoscx".toList then
    match searchCpuColon (PyStr.lower out) with
    | some v => some v
    | none => searchCpuCurrent (PyStr.lower out)
  else none

/-- `re.search(r"Device ID:\s*(\S+)", ln)` (and the `System Name:` variant). -/
def searchLabelledName (label : Str) (t : Str) : Option Str :=
  (List.range (t.length + 1)).findSome? fun i =>
    (PyStr.litAt t i label).bind fun j =>
    ((PyStr.nonWsRunAt t (PyStr.wsRun t j)).map Prod.fst)

/-- `parse_neighbor_names(output)` — the set is modelled as a duplicate-free
list in first-appearance order. -/
def parseNeighborNames (out : Str) : List Str :=
  (PyStr.splitLines out).foldl
    (fun acc ln =>
      let l := PyStr.strip ln
      match searchLabelledName "Device ID:".toList l with
      | some nm => if nm ∈ acc then acc else acc ++ [nm]
      | none =>
        match searchLabelledName "System Name:".toList l with
        | some nm => if nm ∈ acc then acc else acc ++ [nm]
        | none => acc)
    []

/-! ### Polling one device (monitor_health.py `poll_one`, lines 218-261, and
the persistence guard, lines 270-278) -/

/-- The fields of a directory record that `poll_one` consults. -/
structure MDev where
  host : Option Str
  vendor : Option Str
  deviceType : Option Str
  deriving DecidableEq, Repr

/-- `vendor_key(dev)` (lines 93-99). -/
def vendorKey (d : MDev) : Str :=
  let raw := match d.vendor with
    | some v => if v ≠ [] then v else d.deviceType.getD []
    | none => d.deviceType.getD []
  let v := PyStr.lower raw
  if PyStr.containsSub v "cisco".toList || PyStr.containsSub v "ios".toList then "cisco".toList
  else if PyStr.containsSub v "aruba".toList || PyStr.containsSub v "aoscx".toList then "aruba".toList
  else if v = [] then "cisco".toList else v

/-- Outcomes of the external calls made by one `poll_one` invocation. -/
structure PollWorld where
  connectOk : Bool
  cpuOut : Option Str
  neighborsRaw : Str
  errMsg : Str

/-- `poll_one(alias, dev)`: returns `(alias, cpu, raw_preview, raw_neighbor
names)`.  A missing/empty host short-circuits; a connection or CPU-command
exception yields the sentinel `-1` with an `ERR:` preview and no neighbors;
the neighbor fetch swallows its own errors upstream
(`fetch_neighbors_raw`). -/
def pollOne (a : Str) (d : MDev) (w : PollWorld) : Str × ℚ × Str × List Str :=
  match d.host with
  | none => (a, -1, [], [])
  | some h =>
    if h = [] then (a, -1, [], [])
    else if !w.connectOk then (a, -1, "ERR: ".toList ++ w.errMsg, [])
    else match w.cpuOut with
      | none => (a, -1, "ERR: ".toList ++ w.errMsg, [])
      | some out =>
        let cpu : ℚ := match parseCpuOutput (d.vendor.getD (vendorKey d)) out with
          | some n => (n : ℚ)
          | none => 0
        (a, cpu, out.take 5000, parseNeighborNames w.neighborsRaw)

/-- One stored `DeviceHealth` row. -/
structure SampleRow where
  aname : Str
  cpuPct : ℚ
  raw : Str
  deriving DecidableEq, Repr

/-- The persistence step for one collected sample (lines 272-278): store
only when `cpu >= 0.0 or raw` is truthy, clamping the stored percentage at
zero. -/
def persistSample (a : Str) (cpu : ℚ) (raw : Str) : Option SampleRow :=
  if 0 ≤ cpu ∨ raw ≠ [] then some ⟨a, max cpu 0, raw.take 5000⟩ else none

end Monitor

namespace Views

open PyStr

/-- The fields of a resolved `devices.json` record that the command endpoint
(`NetworkCommandAPIView.post`) and the jump-session manager consult. -/
structure VRec where
  host : Option Str
  altHosts : List Str
  loopbacks : List Str
  jumpVia : Option Str
  connStrategy : Option Str
  deriving DecidableEq, Repr

/-- Ordered connection-candidate list (views.py lines 596-632).  The loopback
blocks are commented out in the source; the list is the primary `device_ip`
followed by the truthy `alt_hosts` entries, each appended only when not
already present. -/
def buildCandidates (deviceIp : Str) (r : VRec) : List Str :=
  let altAny := r.altHosts.filter (fun h => h ≠ [])
  let start := if deviceIp ≠ [] then [deviceIp] else []
  altAny.foldl (fun acc h => if h ≠ [] ∧ h ∉ acc then acc ++ [h] else acc) start

/-- Duplicate removal keeping the first occurrence — written from the spec's
words (`[record.host] ++ record.altHosts`, duplicates removed, order
preserved) to compare with `buildCandidates`. -/
def dedupKeepFirst (l : List Str) : List Str :=
  l.foldl (fun acc h => if h ∉ acc then acc ++ [h] else acc) []

/-! ### The command endpoint flow from strategy selection onward
(views.py lines 355-780)

The model starts after the resolution phase, with the resolved record, the
resolved `device_ip` and the alias in hand (the resolution phase makes no
connection attempt).  Outcomes of external calls are supplied by a `World`;
every connection-related call is recorded in an attempt trace. -/

/-- One observable connection attempt. -/
inductive Attempt where
  | jump (jalias : Str)
  | ssh (host : Str)
  | telnet (host : Str)
  | legacySsh (host : Str)
  deriving DecidableEq, Repr

/-- The response shapes the modelled section can produce. -/
inductive Resp where
  | okJump
  | okDirect
  | okLegacy
  | okJumpLate
  | errMissingIp
  | errJumpOnly
  | errCliFail
  | errNotAllowed
  | errBlockedCmd
  | errExecFail
  | errConnect
  deriving DecidableEq, Repr

/-- Environment/request configuration consulted by the modelled section. -/
structure Env where
  alwaysJumpAliases : List Str
  forceJumpForAll : Bool
  preferTelnet : Bool
  forceTelnet : Bool
  telnetPermitted : Bool
  enableLegacy : Bool
  deriving Repr

/-- Outcomes of the external calls (device resolution of the jump alias, the
jump run, CLI prediction, and each transport attempt). -/
structure World where
  resolveJump : Str → Option VRec
  jumpEarly : Option Str
  jumpLate : Option Str
  predictCli : Option Str
  sshOk : Str → Bool
  telnetOk : Str → Bool
  legacyOut : Str → Option Str
  execOut : Option Str

def jumpOnlyS : Str := "jump_only".toList

def jumpFirstS : Str := "jump_first".toList

def directS : Str := "direct".toList

/-- views.py lines 156-162. -/
def safePrefixes : List Str := ["show ".toList, "dir".toList, "display ".toList]

def blockedSubstrings : List Str :=
  [" delete".toList, " erase".toList, " write ".toList, " format".toList,
   " reload".toList, " shutdown".toList, " no shutdown".toList, "copy ".toList,
   " tftp".toList, " ftp ".toList, "scp ".toList]

/-- The connection strategy after the environment overrides
(lines 357-368). -/
def effStrategy (env : Env) (r : VRec) (hostname : Option Str) : Str :=
  let strat0 := r.connStrategy.getD directS
  let aliasUpper := hostname.map upper
  let inAlways : Bool := match aliasUpper with
    | some a => decide (a ∈ env.alwaysJumpAliases)
    | none => false
  let strat1 := if inAlways then jumpOnlyS else strat0
  let jumpViaTruthy : Bool := match r.jumpVia with
    | some jv => jv ≠ []
    | none => false
  if env.forceJumpForAll ∧ jumpViaTruthy then jumpOnlyS else strat1

/-- The direct-transport block (lines 634-672) on the first candidate:
telnet-preferred, telnet-preferred-but-disabled, or ssh-first ordering.
Returns whether a session was obtained and the attempts made. -/
def firstHostAttempts (env : Env) (w : World) (forceT preferT : Bool) (ip0 : Str) :
    Bool × List Attempt :=
  if preferT ∧ env.telnetPermitted then
    if w.telnetOk ip0 then (true, [.telnet ip0])
    else if ¬forceT then
      (w.sshOk ip0, [.telnet ip0, .ssh ip0])
    else (false, [.telnet ip0])
  else if preferT ∧ ¬env.telnetPermitted then
    (w.sshOk ip0, [.ssh ip0])
  else
    if w.sshOk ip0 then (true, [.ssh ip0])
    else if env.telnetPermitted then (w.telnetOk ip0, [.ssh ip0, .telnet ip0])
    else (false, [.ssh ip0])

/-- The remaining-candidate SSH loop (lines 674-693).  Returns the connected
host (if any) and the attempts made. -/
def candidateLoop (w : World) (ip0 : Str) : List Str → Option Str × List Attempt
  | [] => (none, [])
  | h :: rest =>
    if h = [] ∨ h = ip0 then candidateLoop w ip0 rest
    else if w.sshOk h then (some h, [.ssh h])
    else
      let r := candidateLoop w ip0 rest
      (r.1, .ssh h :: r.2)

/-- The legacy-SSH fallback loop (lines 699-717). -/
def legacyLoop (w : World) : List Str → Option Str × List Attempt
  | [] => (none, [])
  | h :: rest =>
    match w.legacyOut h with
    | some _ => (some h, [.legacySsh h])
    | none =>
      let r := legacyLoop w rest
      (r.1, .legacySsh h :: r.2)

/-- Everything after a failed (or skipped) early jump: CLI prediction and
safety gate (lines 440-509), direct transports (634-693), the
`jump_only` guard (695-698), legacy SSH (699-717), the late jump attempt
(718-764) and the final connection error (765-780).  `jfa` is
`jump_first_attempted`. -/
def afterJump (env : Env) (r : VRec) (deviceIp : Str) (strat : Str) (jfa : Bool)
    (tr : List Attempt) (w : World) : Resp × List Attempt :=
  match w.predictCli with
  | none => (.errCliFail, tr)
  | some cli =>
    let lc := lower (strip cli)
    if ¬ (safePrefixes.any fun p => startsWithStr lc p) then (.errNotAllowed, tr)
    else if blockedSubstrings.any fun b => containsSub lc b then (.errBlockedCmd, tr)
    else
      let forceT := if ¬env.telnetPermitted ∧ env.forceTelnet then false else env.forceTelnet
      let preferT := if ¬env.telnetPermitted ∧ env.forceTelnet then false else env.preferTelnet
      let cands := buildCandidates deviceIp r
      let ip0 := cands.headD deviceIp
      let fst := firstHostAttempts env w forceT preferT ip0
      if fst.1 then
        match w.execOut with
        | some _ => (.okDirect, tr ++ fst.2)
        | none => (.errExecFail, tr ++ fst.2)
      else
        let cl := candidateLoop w ip0 cands.tail
        let tr2 := tr ++ fst.2 ++ cl.2
        match cl.1 with
        | some _ =>
          match w.execOut with
          | some _ => (.okDirect, tr2)
          | none => (.errExecFail, tr2)
        | none =>
          if strat = jumpOnlyS ∧ jfa then (.errJumpOnly, tr2)
          else
            let legacyHosts := ip0 :: r.altHosts.filter (fun h => h ≠ ip0)
            let lg := if env.enableLegacy then legacyLoop w legacyHosts else (none, [])
            let tr3 := tr2 ++ lg.2
            match lg.1 with
            | some _ => (.okLegacy, tr3)
            | none =>
              match r.jumpVia with
              | some jv =>
                if jv ≠ [] then
                  match w.resolveJump (upper jv) with
                  | some _ =>
                    match w.jumpLate with
                    | some _ => (.okJumpLate, tr3 ++ [.jump (upper jv)])
                    | none => (.errConnect, tr3 ++ [.jump (upper jv)])
                  | none => (.errConnect, tr3)
                else (.errConnect, tr3)
              | none => (.errConnect, tr3)

/-- The modelled section of `NetworkCommandAPIView.post` from strategy
selection onward (lines 355-780), given a resolved device record. -/
def postFlow (env : Env) (r : VRec) (deviceIp : Str) (hostname : Option Str)
    (w : World) : Resp × List Attempt :=
  let strat := effStrategy env r hostname
  if deviceIp = [] then (.errMissingIp, [])
  else
    match r.jumpVia with
    | some jv =>
      if jv ≠ [] ∧ (strat = jumpFirstS ∨ strat = jumpOnlyS) then
        match w.resolveJump (upper jv) with
        | some _ =>
          match w.jumpEarly with
          | some _ => (.okJump, [.jump (upper jv)])
          | none =>
            if strat = jumpOnlyS then (.errJumpOnly, [.jump (upper jv)])
            else afterJump env r deviceIp strat true [.jump (upper jv)] w
        | none => afterJump env r deviceIp strat false [] w
      else afterJump env r deviceIp strat false [] w
    | none => afterJump env r deviceIp strat false [] w

/-- Is an attempt a direct (non-jump) transport attempt? -/
def isDirectAttempt : Attempt → Bool
  | .jump _ => false
  | .ssh _ => true
  | .telnet _ => true
  | .legacySsh _ => true

/-! ### Jump-session transcript sanitising (views.py `_run_via_jump`,
lines 1217-1242) -/

/-- The bare-timestamp filter (lines 1237-1240):
`ts = s.replace('AM','').replace('PM','').strip()` and then
`ts.count(':') == 1 and ts.replace(':','').replace(' ','').isdigit() and
len(ts) <= 8`. -/
def timestampOnly (s : Str) : Bool :=
  let ts := strip (deleteAll (deleteAll s "AM".toList) "PM".toList)
  countC ts ':' = 1 &&
    isDigitStr (deleteAll (deleteAll ts ":".toList) " ".toList) &&
    ts.length ≤ 8

/-- Does the (truthy) jump prompt equal this stripped line
(`jump_prompt and s.strip() == jump_prompt`)? -/
def jpMatches (jp : Option Str) (x : Str) : Bool :=
  match jp with
  | some j => j ≠ [] && x = j
  | none => false

/-- The sanitising loop over the captured transcript (lines 1218-1241).
`seenEcho` carries the `seen_echo` flag; hitting a short `#`-terminated line
is the `break`. -/
def sanitizeLines (cli tp : Str) (jp : Option Str) (executed : List Str) :
    List Str → Bool → List Str
  | [], _ => []
  | ln :: rest, seenEcho =>
    let s := rstrip ln
    if s = [] then sanitizeLines cli tp jp executed rest seenEcho
    else if ¬seenEcho ∧ containsSub s cli then sanitizeLines cli tp jp executed rest true
    else if endsWithC (strip s) '#' ∧ (strip s).length ≤ tp.length + 4 then []
    else if startsWithStr (strip s) "% Invalid input".toList then
      sanitizeLines cli tp jp executed rest seenEcho
    else if strip s ∈ executed then sanitizeLines cli tp jp executed rest seenEcho
    else if jpMatches jp (strip s) then sanitizeLines cli tp jp executed rest seenEcho
    else if timestampOnly s then sanitizeLines cli tp jp executed rest seenEcho
    else s :: sanitizeLines cli tp jp executed rest seenEcho

/-- `"\n".join(output_lines).strip()` — the sanitized output returned by the
jump-session manager. -/
def sanitizeJumpOutput (raw : Str) (cli tp : Str) (jp : Option Str)
    (executed : List Str) : Str :=
  strip (joinSep "\n".toList (sanitizeLines cli tp jp executed (splitLines raw) false))

end Views

namespace Resolver

open PyStr

/-! ### `difflib` similarity (used by `_fuzzy_location_hits`)

`difflib.get_close_matches(word, possibilities, n=1, cutoff=0.8)` is
non-empty iff some possibility `x` passes
`real_quick_ratio() >= cutoff and quick_ratio() >= cutoff and
ratio() >= cutoff` with `seq1 = x`, `seq2 = word`.  All ratios are modelled
as exact rationals; the word (`seq2`) side is always one of the short
`_FUZZY_KEYS`, so `difflib`'s autojunk heuristic (length ≥ 200) never
applies. -/

/-- `j2len.get(j, 0)`. -/
def j2look : List (ℕ × ℕ) → ℕ → ℕ
  | [], _ => 0
  | (k, v) :: rest, j => if k = j then v else j2look rest j

/-- The inner dynamic-programming loop of
`SequenceMatcher.find_longest_match` (no junk): returns
`(besti, bestj, bestsize)` before the extension phase. -/
def flmCore (a b : Str) (alo ahi blo bhi : ℕ) : ℕ × ℕ × ℕ :=
  (((List.range' alo (ahi - alo)).foldl
    (fun (st : (ℕ × ℕ × ℕ) × List (ℕ × ℕ)) i =>
      let c := (a.get? i).getD (Char.ofNat 0)
      ((List.range b.length).filter
          (fun j => b.get? j = some c ∧ blo ≤ j ∧ j < bhi)).foldl
        (fun (st2 : (ℕ × ℕ × ℕ) × List (ℕ × ℕ)) j =>
          let k := (if j = 0 then 0 else j2look st.2 (j - 1)) + 1
          ((if st2.1.2.2 < k then (i + 1 - k, j + 1 - k, k) else st2.1),
           st2.2 ++ [(j, k)]))
        (st.1, []))
    ((alo, blo, 0), []))).1

/-- The backward extension loop of `find_longest_match` (junk sets empty). -/
def extBack (a b : Str) (alo blo : ℕ) : ℕ → ℕ × ℕ × ℕ → ℕ × ℕ × ℕ
  | 0, r => r
  | Nat.succ f, (bi, bj, bs) =>
    if 0 < bi ∧ alo < bi ∧ blo < bj ∧ a.get? (bi - 1) = b.get? (bj - 1) then
      extBack a b alo blo f (bi - 1, bj - 1, bs + 1)
    else (bi, bj, bs)

/-- The forward extension loop of `find_longest_match`. -/
def extFwd (a b : Str) (ahi bhi : ℕ) : ℕ → ℕ × ℕ × ℕ → ℕ × ℕ × ℕ
  | 0, r => r
  | Nat.succ f, (bi, bj, bs) =>
    if bi + bs < ahi ∧ bj + bs < bhi ∧ a.get? (bi + bs) = b.get? (bj + bs) then
      extFwd a b ahi bhi f (bi, bj, bs + 1)
    else (bi, bj, bs)

/-- `find_longest_match(alo, ahi, blo, bhi)` with empty junk sets. -/
def flm (a b : Str) (alo ahi blo bhi : ℕ) : ℕ × ℕ × ℕ :=
  extFwd a b ahi bhi (ahi + bhi + 1)
    (extBack a b alo blo (alo + blo + ahi + bhi + 1) (flmCore a b alo ahi blo bhi))

/-- Total size of the matching blocks (`get_matching_blocks` recursion); the
fuel strictly dominates the recursion depth. -/
def msum (a b : Str) : ℕ → ℕ → ℕ → ℕ → ℕ → ℕ
  | 0, _, _, _, _ => 0
  | Nat.succ f, alo, ahi, blo, bhi =>
    let r := flm a b alo ahi blo bhi
    if r.2.2 = 0 then 0
    else msum a b f alo r.1 blo r.2.1 + r.2.2 +
         msum a b f (r.1 + r.2.2) ahi (r.2.1 + r.2.2) bhi

/-- `_calculate_ratio(matches, length) >= num/den` as an exact integer
comparison (`2*m/T >= num/den  ↔  den*2*m >= num*T` for `T > 0`; for
`T = 0` the ratio is defined as `1.0`, which passes every cutoff used
here).  The borderline float comparisons of `difflib` agree with the exact
rational ones at the short string lengths involved. -/
def ratioGe (m T num den : ℕ) : Bool :=
  T = 0 || num * T ≤ den * (2 * m)

/-- `SequenceMatcher.quick_ratio()` matches: multiset character
intersection. -/
def quickMatches (x w : Str) : ℕ :=
  x.dedup.foldl (fun m c => m + min (x.count c) (w.count c)) 0

/-- One possibility passing the three `get_close_matches` gates
(`real_quick_ratio`, `quick_ratio`, `ratio`, each compared against the
cutoff `num/den`), with `seq1 = x` and `seq2 = w`. -/
def closeEnough (x w : Str) (num den : ℕ) : Bool :=
  ratioGe (min x.length w.length) (x.length + w.length) num den &&
  ratioGe (quickMatches x w) (x.length + w.length) num den &&
  ratioGe (msum x w (x.length + w.length + 1) 0 x.length 0 w.length)
    (x.length + w.length) num den

/-! ### `_fuzzy_location_hits` (device_resolver.py lines 121-149) -/

def isLowAl (c : Char) : Bool := ('a' ≤ c && c ≤ 'z') || isDig c

/-- The scanning loop of `findTokenPairs` (fuel-structural). -/
def findTokenPairsGo : ℕ → Str → List Str
  | 0, _ => []
  | Nat.succ _, [] => []
  | Nat.succ f, c :: cs =>
    if isLowAl c then
      let run1 := (c :: cs).takeWhile isLowAl
      let rest1 := (c :: cs).drop run1.length
      let ws := rest1.takeWhile isWs
      let rest2 := rest1.drop ws.length
      let run2 := rest2.takeWhile isLowAl
      if ws ≠ [] ∧ run2 ≠ [] then
        (run1 ++ ws ++ run2) :: findTokenPairsGo f (rest2.drop run2.length)
      else run1 :: findTokenPairsGo f rest1
    else findTokenPairsGo f cs

/-- `re.findall(r"[a-z0-9]+(?:\s+[a-z0-9]+)?", text)` — non-overlapping
token or token-pair matches. -/
def findTokenPairs (s : Str) : List Str := findTokenPairsGo s.length s

/-- Order-preserving de-duplication (`dict.fromkeys` / seen-set loop). -/
def dedupeHits (l : List Str) : List Str :=
  l.foldl (fun acc h => if h ∈ acc then acc else acc ++ [h]) []

/-- `_FUZZY_KEYS`. -/
def fuzzyKeys : List Str :=
  ["london".toList, "uk".toList, "vijayawada".toList, "vij".toList,
   "vijay".toList, "vijaya".toList, "building 1".toList]

/-- `_fuzzy_location_hits(q)`: exact containment first, else fuzzy matching
against individual tokens (single-word keys) or token pairs (multi-word
keys) at cutoff 0.8. -/
def fuzzyLocationHits (q : Str) : List Str :=
  let text := lower q
  let tokens := findTokenPairs text
  let hits := fuzzyKeys.foldl
    (fun hits key =>
      if containsSub text key then hits ++ [key]
      else if (splitWs key).length = 1 then
        if (splitWs text).any (fun t => closeEnough t key 4 5) then hits ++ [key] else hits
      else
        if tokens.any (fun t => closeEnough t key 4 5) then hits ++ [key] else hits)
    []
  dedupeHits hits

/-! ### Phrase / keyword / structured-alias patterns
(device_resolver.py lines 71-86, 183-197, 224-238) -/

/-- `re.search(r"vijayawada\s+building\s*1\s+switch\s*1", q, re.I)` on the
lower-cased query. -/
def phrase1Match (q : Str) : Bool :=
  let t := lower q
  (List.range (t.length + 1)).any fun i =>
    ((litAt t i "vijayawada".toList).bind fun j1 =>
     (wsPlusAt t j1).bind fun j2 =>
     (litAt t j2 "building".toList).bind fun j3 =>
     (litAt t (wsRun t j3) "1".toList).bind fun j4 =>
     (wsPlusAt t j4).bind fun j5 =>
     (litAt t j5 "switch".toList).bind fun j6 =>
     litAt t (wsRun t j6) "1".toList).isSome

/-- `re.search(r"\bbuilding\s*1\b", q, re.I)` on the lower-cased query. -/
def building1Match (q : Str) : Bool :=
  let t := lower q
  (List.range (t.length + 1)).any fun i =>
    boundaryBefore t i &&
    ((litAt t i "building".toList).bind fun j1 =>
     (litAt t (wsRun t j1) "1".toList).bind fun j2 =>
     if boundaryAfter t j2 then some j2 else none).isSome

/-- `_PHRASE_MAP` hits in insertion order (both patterns map to
`INVIJB1SW1`). -/
def phraseHits (q : Str) : List Str :=
  (if phrase1Match q then ["INVIJB1SW1".toList] else []) ++
  (if building1Match q then ["INVIJB1SW1".toList] else [])

def isUpAZ (c : Char) : Bool := 'A' ≤ c && c ≤ 'Z'

/-- `(\d+)` as a string with the following position. -/
def digitStrRunAt (t : Str) (i : ℕ) : Option (Str × ℕ) :=
  let run := (t.drop i).takeWhile isDig
  if run.isEmpty then none else some (run, i + run.length)

/-- One-position match of `\b(UK)([A-Z]{3})B(\d+)SW(\d+)\b`; returns
`(group0, city, buildingDigits)`. -/
def searchUKAt (t : Str) (i : ℕ) : Option (Str × Str × Str) :=
  if boundaryBefore t i then
    (litAt t i "UK".toList).bind fun j0 =>
    match t.get? j0, t.get? (j0 + 1), t.get? (j0 + 2) with
    | some c1, some c2, some c3 =>
      if isUpAZ c1 && isUpAZ c2 && isUpAZ c3 then
        (litAt t (j0 + 3) "B".toList).bind fun j1 =>
        (digitStrRunAt t j1).bind fun d1 =>
        (litAt t d1.2 "SW".toList).bind fun j3 =>
        (digitStrRunAt t j3).bind fun d2 =>
        if boundaryAfter t d2.2 then
          some ("UK".toList ++ [c1, c2, c3] ++ "B".toList ++ d1.1 ++ "SW".toList ++ d2.1,
                [c1, c2, c3], d1.1)
        else none
      else none
    | _, _, _ => none
  else none

/-- `re.search` (leftmost match) of the structured-alias grammar. -/
def searchUK (t : Str) : Option (Str × Str × Str) :=
  (List.range (t.length + 1)).findSome? (searchUKAt t)

/-- `re.search(r"\b(w1|w2|...)\b", q, re.I)` as a Boolean, on the lower-cased
query. -/
def wordAltSearch (t : Str) (words : List Str) : Bool :=
  (List.range (t.length + 1)).any fun i =>
    boundaryBefore t i && words.any fun w =>
      match litAt t i w with
      | some j => boundaryAfter t j
      | none => false

/-- `_LOCATION_KEYWORDS` matches in list order. -/
def locationMatches (q : Str) : List Str :=
  let t := lower q
  (if wordAltSearch t ["vij".toList, "vijay".toList, "vijaya".toList,
      "vijayawada".toList, "india".toList] then ["INVIJB1SW1".toList] else []) ++
  (if wordAltSearch t ["london".toList, "uk".toList] then ["UKLONB1SW2".toList] else [])

/-! ### The registry and `resolve_device` (device_resolver.py lines 89-240) -/

/-- A stored device record; `aliasF` models the optional `"alias"` key. -/
structure RRec where
  aliasF : Option Str
  host : Option Str
  altHosts : List Str
  deriving DecidableEq, Repr

abbrev Registry := List (Str × RRec)

def lookupReg : Registry → Str → Option RRec
  | [], _ => none
  | (k, v) :: rest, a => if k = a then some v else lookupReg rest a

def containsKey (d : Registry) (k : Str) : Bool := (lookupReg d k).isSome

def regKeys (d : Registry) : List Str := d.map Prod.fst

/-- `_attach_alias(alias, dev)` — adds the `alias` key when absent. -/
def attachAlias (a : Str) (dev : Option RRec) : Option RRec :=
  match dev with
  | none => none
  | some d => if d.aliasF = none then some { d with aliasF := some a } else some d

/-- `_best_uk_alias(devices)`. -/
def bestUkAlias (d : Registry) : Option Str :=
  if containsKey d "UKLONB1SW2".toList then some "UKLONB1SW2".toList
  else match (regKeys d).find? (fun k => startsWithStr k "UKLONB".toList) with
    | some k => some k
    | none => (regKeys d).find? (fun k => startsWithStr k "UK".toList)

/-- `_best_in_alias(devices)`. -/
def bestInAlias (d : Registry) : Option Str :=
  if containsKey d "INVIJB1SW1".toList then some "INVIJB1SW1".toList
  else (regKeys d).find? (fun k => startsWithStr k "INVIJB1SW".toList)

abbrev ResolveOut := Option RRec × List Str × Option Str

/-- Step 5: exact location-keyword preference (lines 224-240). -/
def resolveStep5 (devices : Registry) (q : Str) : ResolveOut :=
  let m := dedupeHits (locationMatches q)
  if m.length = 1 then
    let a0 := m.headD []
    let a1opt := if containsKey devices a0 then some a0
      else if startsWithStr a0 "UK".toList then bestUkAlias devices else bestInAlias devices
    match a1opt with
    | some al =>
      if containsKey devices al then (attachAlias al (lookupReg devices al), [], none)
      else (none, [], some "No matching device".toList)
    | none => (none, [], some "No matching device".toList)
  else if 1 < m.length then
    let cand := [bestUkAlias devices, bestInAlias devices].filterMap id
    (none, if cand.isEmpty then regKeys devices else cand,
     some "Multiple location matches".toList)
  else (none, [], some "No matching device".toList)

def vijGroupKeys : List Str :=
  ["vijayawada".toList, "vij".toList, "vijay".toList, "vijaya".toList,
   "building 1".toList]

/-- The de-duplicated site aliases mapped from the fuzzy hits of a query
(lines 200-209). -/
def mappedAliases (q : Str) : List Str :=
  dedupeHits ((fuzzyLocationHits q).foldl
    (fun acc k =>
      if k = "london".toList ∨ k = "uk".toList then acc ++ ["UKLONB1SW2".toList]
      else if k ∈ vijGroupKeys then acc ++ ["INVIJB1SW1".toList]
      else acc)
    [])

/-- Step 4: fuzzy location matching mapped to preferred site aliases
(lines 199-222); falls through to step 5 when undecided. -/
def resolveStep4 (devices : Registry) (q : Str) : ResolveOut :=
  let mapped := mappedAliases q
  if mapped.length = 1 then
    let t0 := mapped.headD []
    let target := if containsKey devices t0 then some t0
      else if startsWithStr t0 "UK".toList then bestUkAlias devices else bestInAlias devices
    match target with
    | some t =>
      if containsKey devices t then (attachAlias t (lookupReg devices t), [], none)
      else resolveStep5 devices q
    | none => resolveStep5 devices q
  else if 1 < mapped.length then
    let cand := [bestUkAlias devices, bestInAlias devices].filterMap id
    (none, if cand.isEmpty then regKeys devices else cand,
     some "Multiple location matches".toList)
  else resolveStep5 devices q

/-- Step 3: structured alias grammar (lines 183-197); falls through to step 4
when the regex does not match or narrows to nothing. -/
def resolveStep3 (devices : Registry) (q upperQ : Str) : ResolveOut :=
  match searchUK upperQ with
  | some g =>
    if containsKey devices g.1 then (attachAlias g.1 (lookupReg devices g.1), [], none)
    else
      let pre := "UK".toList ++ g.2.1 ++ "B".toList ++ g.2.2 ++ "SW".toList
      let cands := (regKeys devices).filter (fun a => startsWithStr a pre)
      if cands.length = 1 then (lookupReg devices (cands.headD []), [], none)
      else if ¬cands.isEmpty then (none, cands, some "Ambiguous switch reference".toList)
      else resolveStep4 devices q
  | none => resolveStep4 devices q

/-- `resolve_device(query)` (lines 152-240): direct alias containment,
phrase map, structured grammar, fuzzy location, keyword preference. -/
def resolveDevice (devices : Registry) (query : Str) : ResolveOut :=
  if devices.isEmpty then (none, [], some "No devices configured".toList)
  else
    let q := strip query
    if q = [] then (none, [], some "Empty query".toList)
    else
      let upperQ := upper q
      let direct := (regKeys devices).filter (fun al => containsSub upperQ al)
      if direct.length = 1 then
        (attachAlias (direct.headD []) (lookupReg devices (direct.headD [])), [], none)
      else if 1 < direct.length then
        (none, direct, some "Multiple aliases mentioned".toList)
      else
        let ph := phraseHits q
        if ph.length = 1 then
          (attachAlias (ph.headD []) (lookupReg devices (ph.headD [])), [], none)
        else if 1 < ph.length then
          (none, ph, some "Multiple phrase matches".toList)
        else resolveStep3 devices q upperQ

/-- `str(...)` on an optional host (`str(None) = "None"`). -/
def pyStrOpt (o : Option Str) : Str := o.getD "None".toList

/-- `find_device_by_host(host)` (lines 51-68). -/
def findDeviceByHost (devices : Registry) (host : Str) :
    Option Str × Option RRec :=
  if host = [] then (none, none)
  else
    match devices.find? (fun kv =>
        pyStrOpt kv.2.host = host ∨ kv.2.altHosts.any (fun ah => ah = host)) with
    | some kv => (some kv.1, attachAlias kv.1 (some kv.2))
    | none => (none, none)

end Resolver

/-! ## Theorems -/

section MonitorTheorems

open Monitor

/-- Claim C2 counterexample: with raise threshold 80 and clear threshold 60,
the sample 70 increments `lowCount` and resets `highCount` although it is not
inside the claimed band `0 ≤ sample ≤ clear-threshold` (70 > 60), so the
"exactly when" characterisation of the claim fails at this input. -/
theorem c2_counterexample :
    Monitor.cpuCounts 80 70 3 1 = (0, 2) ∧ ¬((0 : ℚ) ≤ 70 ∧ (70 : ℚ) ≤ 60) := by
  constructor
  · decide
  · decide

/-- Claim C2 (amended): for a non-negative raise threshold, a sample at or
above the threshold increments `highCount` and resets `lowCount`; a sample
strictly below the threshold — including the connection-failure sentinel −1 —
increments `lowCount` and resets `highCount`; and a failure sample can never
clear an active alert because the clear step requires `0 ≤ cpu`. -/
theorem c2_amended (th cpu : ℚ) (hth : 0 ≤ th) (hc lc : ℕ) :
    (th ≤ cpu → Monitor.cpuCounts th cpu hc lc = (hc + 1, 0)) ∧
    (cpu < th → Monitor.cpuCounts th cpu hc lc = (0, lc + 1)) ∧
    (Monitor.cpuCounts th (-1) hc lc = (0, lc + 1)) ∧
    (∀ ccons clearTh a now db, cpu < 0 →
      Monitor.cpuClear ccons clearTh a lc cpu now db = db) := by
  refine ⟨?_, ?_, ?_, ?_⟩
  · intro hge
    have hnn : ¬cpu < 0 := not_lt.mpr (le_trans hth hge)
    simp [Monitor.cpuCounts, hnn, hge]
  · intro hlt
    by_cases hneg : cpu < 0
    · simp [Monitor.cpuCounts, hneg]
    · simp [Monitor.cpuCounts, hneg, not_le.mpr hlt]
  · have : (-1 : ℚ) < 0 := by norm_num
    simp [Monitor.cpuCounts, this]
  · intro ccons clearTh a now db hneg
    have : ¬(0 : ℚ) ≤ cpu := not_le.mpr hneg
    simp [Monitor.cpuClear, this]

/-- Witness for C2 (amended) at threshold 80 with samples 90, 70 and −1. -/
theorem c2_amended_witness :
    (0 : ℚ) ≤ 80 ∧
    (((80 : ℚ) ≤ 90 → Monitor.cpuCounts 80 90 5 2 = (5 + 1, 0)) ∧
     ((90 : ℚ) < 80 → Monitor.cpuCounts 80 90 5 2 = (0, 2 + 1)) ∧
     (Monitor.cpuCounts 80 (-1) 5 2 = (0, 2 + 1)) ∧
     (∀ ccons clearTh a now db, (90 : ℚ) < 0 →
       Monitor.cpuClear ccons clearTh a 2 (90 : ℚ) now db = db)) :=
  ⟨by decide, c2_amended 80 90 (by decide) 5 2⟩

/-- Claim C1 counterexample: starting with one still-active CPU alert (raised
at time 0) for alias `A`, a raise step at time 100 with a 15-minute cooldown
creates a second record although the first is still uncleared, leaving two
active `(A, cpu)` records. -/
theorem c1_counterexample :
    Monitor.activeCount
      [(⟨"A".toList, Monitor.cpuCat, 0, none⟩ : Monitor.AlertRec)]
      ("A".toList) Monitor.cpuCat = 1 ∧
    Monitor.activeCount
      ((Monitor.cpuRaise 2 15 80 ("A".toList) 2 90 100 none
        [⟨"A".toList, Monitor.cpuCat, 0, none⟩]).1)
      ("A".toList) Monitor.cpuCat = 2 := by
  constructor
  · decide
  · decide

/-- Claim C1 (amended): the CPU raise step consults the stored active record
and, when one exists and neither the in-memory last-alert time nor the active
record's creation time has aged past the cooldown, creates nothing — the
database and the last-alert map are returned unchanged.  (Outside the
cooldown a duplicate active record *is* created, and loop alerts are deduped
only per signature; see the counterexample.) -/
theorem c1_amended (breach : ℕ) (cooldown : ℤ) (th cpu : ℚ) (a : Str) (hc : ℕ)
    (now : ℤ) (lastAt : Option ℤ) (db : Monitor.AlertDB) (r : Monitor.AlertRec)
    (hact : Monitor.latestActive db a Monitor.cpuCat = some r)
    (hcool : now - r.createdAt < cooldown)
    (hlast : ∀ t, lastAt = some t → now - t < cooldown) :
    Monitor.cpuRaise breach cooldown th a hc cpu now lastAt db = (db, lastAt) := by
  have h1 : ¬cooldown ≤ now - r.createdAt := not_le.mpr hcool
  cases lastAt with
  | none =>
    simp only [Monitor.cpuRaise, hact]
    split
    · simp [h1]
    · rfl
  | some t =>
    have h2 : ¬cooldown ≤ now - t := not_le.mpr (hlast t rfl)
    simp only [Monitor.cpuRaise, hact]
    split
    · simp [h1, h2]
    · rfl

/-- Witness for C1 (amended): at time 10 with cooldown 15, an alert raised at
time 5 is within cooldown, so the raise step changes nothing. -/
theorem c1_amended_witness :
    Monitor.latestActive [(⟨"A".toList, Monitor.cpuCat, 5, none⟩ : Monitor.AlertRec)]
      ("A".toList) Monitor.cpuCat = some ⟨"A".toList, Monitor.cpuCat, 5, none⟩ ∧
    (10 : ℤ) - 5 < 15 ∧
    Monitor.cpuRaise 2 15 80 ("A".toList) 2 90 10 none
      [⟨"A".toList, Monitor.cpuCat, 5, none⟩] =
      ([⟨"A".toList, Monitor.cpuCat, 5, none⟩], none) :=
  ⟨by decide, by decide,
   c1_amended 2 15 80 90 ("A".toList) 2 10 none
     [⟨"A".toList, Monitor.cpuCat, 5, none⟩] ⟨"A".toList, Monitor.cpuCat, 5, none⟩
     (by decide) (by decide) (by simp)⟩

end MonitorTheorems

section LoopClearTheorems

/-- Auxiliary: after `clearAllLoop`, no loop-category record is still
uncleared. -/
theorem mem_clearAllLoop_cleared (db : Monitor.AlertDB) (now : ℤ) :
    ∀ r ∈ Monitor.clearAllLoop db now,
      r.category = Monitor.loopCat → r.clearedAt ≠ none := by
  intro r hr
  rcases List.mem_map.mp hr with ⟨r₀, _, rfl⟩
  by_cases hcond : r₀.category = Monitor.loopCat ∧ r₀.clearedAt = none
  · rw [if_pos hcond]
    intro _
    simp
  · rw [if_neg hcond]
    intro hcat hnone
    exact hcond ⟨hcat, hnone⟩

/-- Claim C6: in one monitoring cycle, if the neighbor graph has at least 3
entries and cycle detection reports no cycle, the loop section replaces the
alert store by one where every loop record is cleared; and if the neighbor
graph is empty that cycle, the loop section leaves the store and the
signature map untouched. -/
theorem c6_loop_autoclear (lc : ℤ) (g : Monitor.Graph) (st : List (Str × ℤ))
    (db : Monitor.AlertDB) (now : ℤ) :
    (3 ≤ g.length → Monitor.detectLoops g = [] →
      (Monitor.loopSection lc g st db now).1 = Monitor.clearAllLoop db now ∧
      ∀ r ∈ (Monitor.loopSection lc g st db now).1,
        r.category = Monitor.loopCat → r.clearedAt ≠ none) ∧
    (g = [] → Monitor.loopSection lc g st db now = (db, st)) := by
  constructor
  · intro h3 hno
    have hsec : Monitor.loopSection lc g st db now = (Monitor.clearAllLoop db now, st) := by
      simp [Monitor.loopSection, hno, h3]
    rw [hsec]
    exact ⟨rfl, mem_clearAllLoop_cleared db now⟩
  · rintro rfl
    simp [Monitor.loopSection]

/-- Witness for C6 on a 3-node cycle-free graph carrying one active loop
alert, and on the empty graph. -/
theorem c6_loop_autoclear_witness :
    (3 ≤ ([(("A".toList : Str), [("B".toList : Str)]),
           ("B".toList, ["A".toList]),
           ("C".toList, ["B".toList])] : Monitor.Graph).length ∧
     Monitor.detectLoops [("A".toList, ["B".toList]), ("B".toList, ["A".toList]),
       ("C".toList, ["B".toList])] = []) ∧
    (Monitor.loopSection 30 [("A".toList, ["B".toList]), ("B".toList, ["A".toList]),
        ("C".toList, ["B".toList])] []
      [⟨"A".toList, Monitor.loopCat, 0, none⟩] 100).1 =
      Monitor.clearAllLoop [⟨"A".toList, Monitor.loopCat, 0, none⟩] 100 ∧
    Monitor.loopSection 30 ([] : Monitor.Graph) []
      [⟨"A".toList, Monitor.loopCat, 0, none⟩] 100 =
      ([⟨"A".toList, Monitor.loopCat, 0, none⟩], []) :=
  ⟨⟨by decide, by decide⟩,
   ((c6_loop_autoclear 30 [("A".toList, ["B".toList]), ("B".toList, ["A".toList]),
       ("C".toList, ["B".toList])] []
       [⟨"A".toList, Monitor.loopCat, 0, none⟩] 100).1 (by decide) (by decide)).1,
   (c6_loop_autoclear 30 ([] : Monitor.Graph) []
       [⟨"A".toList, Monitor.loopCat, 0, none⟩] 100).2 rfl⟩

end LoopClearTheorems

section PollTheorems

/-- Claim C7 counterexample: a directory entry with no configured host yields
the sample `(-1, "")`, and the persistence guard `cpu >= 0.0 or raw` skips
it, so not every directory entry's sample is persisted. -/
theorem c7_counterexample :
    Monitor.pollOne ("A".toList) ⟨none, none, none⟩ ⟨true, some [], [], []⟩ =
      ("A".toList, -1, [], []) ∧
    Monitor.persistSample ("A".toList) (-1) [] = none := by
  constructor
  · rfl
  · decide

/-- Claim C7 (amended): for a directory entry with a configured (nonempty)
host, a connection failure or a CPU-command exception makes `poll_one` return
the sentinel −1 with an `ERR:` preview and an empty neighbor set instead of
raising, and the entry's sample — failed polls included — passes the
persistence guard; only host-less entries are skipped (see the
counterexample). -/
theorem c7_poll_failures (a : Str) (d : Monitor.MDev) (w : Monitor.PollWorld)
    (h : Str) (hh : d.host = some h) (hne : h ≠ []) :
    ((¬w.connectOk = true ∨ w.cpuOut = none) →
      Monitor.pollOne a d w = (a, -1, "ERR: ".toList ++ w.errMsg, [])) ∧
    (Monitor.persistSample a (Monitor.pollOne a d w).2.1
      (Monitor.pollOne a d w).2.2.1).isSome := by
  constructor
  · intro hfail
    rcases hfail with hc | hc
    · have : w.connectOk = false := by
        cases hcase : w.connectOk
        · rfl
        · exact absurd hcase hc
      simp [Monitor.pollOne, hh, hne, this]
    · cases hcase : w.connectOk
      · simp [Monitor.pollOne, hh, hne, hcase]
      · simp [Monitor.pollOne, hh, hne, hcase, hc]
  · cases hcase : w.connectOk
    · simp [Monitor.pollOne, hh, hne, hcase, Monitor.persistSample]
    · cases hout : w.cpuOut with
      | none => simp [Monitor.pollOne, hh, hne, hcase, hout, Monitor.persistSample]
      | some out =>
        have hcpu : (0 : ℚ) ≤ (match Monitor.parseCpuOutput (d.vendor.getD (Monitor.vendorKey d)) out with
            | some n => (n : ℚ)
            | none => 0) := by
          cases Monitor.parseCpuOutput (d.vendor.getD (Monitor.vendorKey d)) out with
          | none => simp
          | some n => simp
        simp only [Monitor.pollOne, hh, hne, hcase, hout]
        simp [Monitor.persistSample, hne, hcpu]

/-- Witness for C7 (amended): a timed-out connection to a configured host is
recorded as a failed sample and still persisted. -/
theorem c7_poll_failures_witness :
    ((⟨some "10.0.0.1".toList, some "cisco".toList, none⟩ : Monitor.MDev).host =
      some "10.0.0.1".toList) ∧ "10.0.0.1".toList ≠ ([] : Str) ∧
    (((¬(⟨false, none, [], "timed out".toList⟩ : Monitor.PollWorld).connectOk = true ∨
        (⟨false, none, [], "timed out".toList⟩ : Monitor.PollWorld).cpuOut = none) →
      Monitor.pollOne ("A".toList) ⟨some "10.0.0.1".toList, some "cisco".toList, none⟩
          ⟨false, none, [], "timed out".toList⟩ =
        ("A".toList, -1, "ERR: ".toList ++ "timed out".toList, [])) ∧
    (Monitor.persistSample ("A".toList)
      (Monitor.pollOne ("A".toList) ⟨some "10.0.0.1".toList, some "cisco".toList, none⟩
        ⟨false, none, [], "timed out".toList⟩).2.1
      (Monitor.pollOne ("A".toList) ⟨some "10.0.0.1".toList, some "cisco".toList, none⟩
        ⟨false, none, [], "timed out".toList⟩).2.2.1).isSome) :=
  ⟨rfl, by decide,
   c7_poll_failures ("A".toList) ⟨some "10.0.0.1".toList, some "cisco".toList, none⟩
     ⟨false, none, [], "timed out".toList⟩ ("10.0.0.1".toList) rfl (by decide)⟩

end PollTheorems

section CandidateTheorems

/-- Auxiliary: on a list of nonempty hosts, the source's guarded append fold
agrees with plain first-occurrence de-duplication. -/
theorem foldl_guard_eq_dedup (l : List Str) :
    ∀ acc : List Str, (∀ h ∈ l, h ≠ []) →
      l.foldl (fun acc h => if h ≠ [] ∧ h ∉ acc then acc ++ [h] else acc) acc =
      l.foldl (fun acc h => if h ∉ acc then acc ++ [h] else acc) acc := by
  induction l with
  | nil => intro acc _; rfl
  | cons h t ih =>
    intro acc hall
    have hne : h ≠ [] := hall h (List.mem_cons_self h t)
    have ht : ∀ x ∈ t, x ≠ [] := fun x hx => hall x (List.mem_cons_of_mem h hx)
    simp only [List.foldl_cons]
    by_cases hmem : h ∈ acc
    · have h1 : ¬(h ≠ [] ∧ h ∉ acc) := fun hc => hc.2 hmem
      have h2 : ¬h ∉ acc := fun hc => hc hmem
      rw [if_neg h1, if_neg h2]
      exact ih acc ht
    · rw [if_pos ⟨hne, hmem⟩, if_pos hmem]
      exact ih (acc ++ [h]) ht

/-- Auxiliary: elements produced by the guarded append fold come from the
accumulator or the list. -/
theorem mem_foldl_guard (l : List Str) :
    ∀ acc x, x ∈ l.foldl (fun acc h => if h ≠ [] ∧ h ∉ acc then acc ++ [h] else acc) acc →
      x ∈ acc ∨ x ∈ l := by
  induction l with
  | nil => intro acc x hx; exact Or.inl hx
  | cons h t ih =>
    intro acc x hx
    simp only [List.foldl_cons] at hx
    rcases ih _ x hx with hx' | hx'
    · by_cases hc : h ≠ [] ∧ h ∉ acc
      · rw [if_pos hc] at hx'
        rcases List.mem_append.mp hx' with h1 | h1
        · exact Or.inl h1
        · have hxh : x = h := List.mem_singleton.mp h1
          exact Or.inr (hxh ▸ List.mem_cons_self h t)
      · rw [if_neg hc] at hx'
        exact Or.inl hx'
    · exact Or.inr (List.mem_cons_of_mem h hx')

end CandidateTheorems

/-- Claim C8 counterexample: with `alt_hosts = [B, B]` the source's candidate
builder removes the duplicate `B` as well, so the list differs from
"`[record.host] ++ record.altHosts` with only duplicates of the primary host
removed". -/
theorem c8_counterexample :
    Views.buildCandidates ("A".toList)
      ⟨some ("A".toList), ["B".toList, "B".toList], [], none, none⟩ =
      ["A".toList, "B".toList] ∧
    ("A".toList :: (["B".toList, "B".toList].filter (fun h => h ≠ "A".toList))) =
      ["A".toList, "B".toList, "B".toList] ∧
    (["A".toList, "B".toList] : List Str) ≠ ["A".toList, "B".toList, "B".toList] :=
  ⟨by decide, by decide, by decide⟩

/-- Claim C8 (amended): the candidate list equals `[record.host] ++
record.altHosts` with empty entries dropped and *all* duplicates removed
(first occurrence kept, relative order preserved); every candidate is the
primary host or an alternate host, so the record's loopback addresses —
which the builder never reads — cannot appear unless they coincide with one
of those. -/
theorem c8_amended (ip : Str) (r : Views.VRec) (hip : ip ≠ []) :
    Views.buildCandidates ip r =
      Views.dedupKeepFirst (ip :: r.altHosts.filter (fun h => h ≠ [])) ∧
    (∀ x ∈ Views.buildCandidates ip r, x = ip ∨ x ∈ r.altHosts) ∧
    (∀ lb ∈ r.loopbacks, lb ≠ ip → lb ∉ r.altHosts →
      lb ∉ Views.buildCandidates ip r) := by
  have hfine : ∀ h ∈ r.altHosts.filter (fun h => h ≠ []), h ≠ [] := by
    intro h hh
    have := (List.mem_filter.mp hh).2
    simpa using this
  have hmem0 : ∀ x ∈ Views.buildCandidates ip r, x = ip ∨ x ∈ r.altHosts := by
    intro x hx
    simp only [Views.buildCandidates] at hx
    rw [if_pos hip] at hx
    rcases mem_foldl_guard _ _ x hx with h1 | h1
    · exact Or.inl (List.mem_singleton.mp h1)
    · exact Or.inr (List.mem_of_mem_filter h1)
  refine ⟨?_, hmem0, ?_⟩
  · simp only [Views.buildCandidates, Views.dedupKeepFirst]
    rw [if_pos hip, List.foldl_cons]
    have h0 : (if (ip : Str) ∉ ([] : List Str) then ([] : List Str) ++ [ip] else []) = [ip] := by
      simp
    rw [h0]
    exact foldl_guard_eq_dedup _ [ip] hfine
  · intro lb _ hne hnot hmem
    rcases hmem0 lb hmem with h1 | h1
    · exact hne h1
    · exact hnot h1

/-- Witness for C8 (amended) with an empty alternate entry, a duplicate and a
loopback address. -/
theorem c8_amended_witness :
    ("A".toList : Str) ≠ [] ∧
    (Views.buildCandidates ("A".toList)
        ⟨some ("A".toList), ["B".toList, [], "B".toList], ["L".toList], none, none⟩ =
      Views.dedupKeepFirst
        ("A".toList :: (["B".toList, [], "B".toList].filter (fun h => h ≠ []))) ∧
    (∀ x ∈ Views.buildCandidates ("A".toList)
        ⟨some ("A".toList), ["B".toList, [], "B".toList], ["L".toList], none, none⟩,
      x = "A".toList ∨ x ∈ ["B".toList, [], "B".toList]) ∧
    (∀ lb ∈ (["L".toList] : List Str), lb ≠ "A".toList →
      lb ∉ (["B".toList, [], "B".toList] : List Str) →
      lb ∉ Views.buildCandidates ("A".toList)
        ⟨some ("A".toList), ["B".toList, [], "B".toList], ["L".toList], none, none⟩)) :=
  ⟨by decide,
   c8_amended ("A".toList)
     ⟨some ("A".toList), ["B".toList, [], "B".toList], ["L".toList], none, none⟩
     (by decide)⟩

section JumpOnlyTheorems

/-- Auxiliary: a record whose `connection_strategy` is `jump_only` keeps that
strategy under every environment override (the overrides can only force
`jump_only`). -/
theorem effStrategy_jump_only (env : Views.Env) (r : Views.VRec)
    (hn : Option Str) (hstrat : r.connStrategy = some Views.jumpOnlyS) :
    Views.effStrategy env r hn = Views.jumpOnlyS := by
  simp [Views.effStrategy, hstrat]

/-- Claim C3: if the resolved record has `connectionStrategy = jump_only` and
`jumpVia` set, the jump device resolves, and the jump attempt fails, then the
endpoint answers with the jump connection error having made exactly the one
jump attempt — no ssh, telnet or legacy-ssh transport is ever tried against
the target. -/
theorem c3_jump_only_no_fallback (env : Views.Env) (r : Views.VRec) (ip : Str)
    (hn : Option Str) (w : Views.World) (jv : Str)
    (hstrat : r.connStrategy = some Views.jumpOnlyS)
    (hjv : r.jumpVia = some jv)
    (hjvne : jv ≠ [])
    (hip : ip ≠ [])
    (hjd : (w.resolveJump (PyStr.upper jv)).isSome = true)
    (hfail : w.jumpEarly = none) :
    Views.postFlow env r ip hn w =
      (Views.Resp.errJumpOnly, [Views.Attempt.jump (PyStr.upper jv)]) ∧
    ∀ a ∈ (Views.postFlow env r ip hn w).2, Views.isDirectAttempt a = false := by
  have heff := effStrategy_jump_only env r hn hstrat
  rcases Option.isSome_iff_exists.mp hjd with ⟨jd, hjd'⟩
  have hmain : Views.postFlow env r ip hn w =
      (Views.Resp.errJumpOnly, [Views.Attempt.jump (PyStr.upper jv)]) := by
    simp [Views.postFlow, heff, hjv, hjvne, hip, hjd', hfail]
  refine ⟨hmain, ?_⟩
  rw [hmain]
  intro a ha
  have : a = Views.Attempt.jump (PyStr.upper jv) := List.mem_singleton.mp ha
  rw [this]
  rfl

/-- Witness for C3: a concrete `jump_only` record whose jump attempt raises;
the response is the 502 jump error and the trace holds only the jump
attempt. -/
theorem c3_jump_only_no_fallback_witness :
    ((⟨some ("10.0.0.2".toList), [], [], some ("JUMP1".toList),
        some Views.jumpOnlyS⟩ : Views.VRec).connStrategy = some Views.jumpOnlyS) ∧
    ((⟨some ("10.0.0.2".toList), [], [], some ("JUMP1".toList),
        some Views.jumpOnlyS⟩ : Views.VRec).jumpVia = some ("JUMP1".toList)) ∧
    ("JUMP1".toList : Str) ≠ [] ∧
    ("10.0.0.2".toList : Str) ≠ [] ∧
    (Views.postFlow ⟨[], false, false, false, true, true⟩
        ⟨some ("10.0.0.2".toList), [], [], some ("JUMP1".toList), some Views.jumpOnlyS⟩
        ("10.0.0.2".toList) (some ("SW2".toList))
        ⟨fun _ => some ⟨some ("10.0.0.9".toList), [], [], none, none⟩, none, none,
         some ("show version".toList), fun _ => true, fun _ => true, fun _ => none, some []⟩ =
      (Views.Resp.errJumpOnly, [Views.Attempt.jump (PyStr.upper ("JUMP1".toList))]) ∧
    ∀ a ∈ (Views.postFlow ⟨[], false, false, false, true, true⟩
        ⟨some ("10.0.0.2".toList), [], [], some ("JUMP1".toList), some Views.jumpOnlyS⟩
        ("10.0.0.2".toList) (some ("SW2".toList))
        ⟨fun _ => some ⟨some ("10.0.0.9".toList), [], [], none, none⟩, none, none,
         some ("show version".toList), fun _ => true, fun _ => true, fun _ => none, some []⟩).2,
      Views.isDirectAttempt a = false) :=
  ⟨rfl, rfl, by decide, by decide,
   c3_jump_only_no_fallback ⟨[], false, false, false, true, true⟩
     ⟨some ("10.0.0.2".toList), [], [], some ("JUMP1".toList), some Views.jumpOnlyS⟩
     ("10.0.0.2".toList) (some ("SW2".toList))
     ⟨fun _ => some ⟨some ("10.0.0.9".toList), [], [], none, none⟩, none, none,
      some ("show version".toList), fun _ => true, fun _ => true, fun _ => none, some []⟩
     ("JUMP1".toList) rfl rfl (by decide) (by decide) rfl rfl⟩

end JumpOnlyTheorems

section SanitizeTheorems

/-- Auxiliary soundness of the sanitising loop: provided the transcript
contains at most one more command-echo line than already consumed, no
produced line contains the command, equals the target prompt after
stripping, or equals the (truthy) jump prompt after stripping. -/
theorem sanitize_sound (cli tp : Str) (jp : Option Str) (executed : List Str)
    (htp : PyStr.endsWithC tp '#' = true) :
    ∀ (lines : List Str) (b : Bool),
      (lines.filter fun ln => PyStr.containsSub (PyStr.rstrip ln) cli).length ≤
        (if b then 0 else 1) →
      ∀ s ∈ Views.sanitizeLines cli tp jp executed lines b,
        PyStr.containsSub s cli = false ∧ PyStr.strip s ≠ tp ∧
        (∀ j, jp = some j → j ≠ [] → PyStr.strip s ≠ j) := by
  intro lines
  induction lines with
  | nil =>
    intro b _ s hs
    simp [Views.sanitizeLines] at hs
  | cons ln rest ih =>
    intro b hcount s hs
    rw [List.filter_cons] at hcount
    simp only [Views.sanitizeLines] at hs
    by_cases hc : PyStr.containsSub (PyStr.rstrip ln) cli = true
    · rw [if_pos hc] at hcount
      simp only [List.length_cons] at hcount
      cases b with
      | true =>
        exfalso
        simp at hcount
      | false =>
        have hrest0 :
            (rest.filter fun l => PyStr.containsSub (PyStr.rstrip l) cli).length ≤ 0 := by
          simp only [if_neg Bool.false_ne_true] at hcount
          omega
        split_ifs at hs with hblank hecho hbreak hinv hexec hjpg hts
        · exact ih false (le_trans hrest0 (by norm_num)) s hs
        · exact ih true (by simpa using hrest0) s hs
        · exact absurd hs (List.not_mem_nil s)
        · exact ih false (le_trans hrest0 (by norm_num)) s hs
        · exact ih false (le_trans hrest0 (by norm_num)) s hs
        · exact ih false (le_trans hrest0 (by norm_num)) s hs
        · exact ih false (le_trans hrest0 (by norm_num)) s hs
        · exact absurd ⟨by simp, hc⟩ hecho
    · have hcf : PyStr.containsSub (PyStr.rstrip ln) cli = false :=
        Bool.eq_false_iff.mpr hc
      rw [if_neg (by simp [hcf])] at hcount
      have hrest :
          (rest.filter fun l => PyStr.containsSub (PyStr.rstrip l) cli).length ≤
            (if b then 0 else 1) := hcount
      split_ifs at hs with hblank hecho hbreak hinv hexec hjpg hts
      · exact ih b hrest s hs
      · exact absurd hecho.2 hc
      · exact absurd hs (List.not_mem_nil s)
      · exact ih b hrest s hs
      · exact ih b hrest s hs
      · exact ih b hrest s hs
      · exact ih b hrest s hs
      · rcases List.mem_cons.mp hs with rfl | hs
        · refine ⟨hcf, ?_, ?_⟩
          · intro heq
            apply hbreak
            rw [heq]
            exact ⟨htp, by omega⟩
          · intro j hj hjne heq
            apply hjpg
            rw [hj]
            simp [Views.jpMatches, hjne, heq]
        · exact ih b hrest s hs

/-- Claim C9: for a jump-session transcript that contains the echoed CLI
command on (at most) one line, the sanitized line list contains no line
mentioning the command, no line whose stripped form is the target's closing
prompt, and no line whose stripped form is the jump device's own (truthy)
prompt. -/
theorem c9_jump_sanitize (lines : List Str) (cli tp jp : Str) (executed : List Str)
    (htp : PyStr.endsWithC tp '#' = true)
    (hecho : (lines.filter fun ln => PyStr.containsSub (PyStr.rstrip ln) cli).length ≤ 1)
    (hjp : jp ≠ []) :
    ∀ s ∈ Views.sanitizeLines cli tp (some jp) executed lines false,
      PyStr.containsSub s cli = false ∧ PyStr.strip s ≠ tp ∧ PyStr.strip s ≠ jp := by
  intro s hs
  have h := sanitize_sound cli tp (some jp) executed htp lines false (by simpa using hecho) s hs
  exact ⟨h.1, h.2.1, h.2.2 jp rfl hjp⟩

/-- Witness for C9 on a concrete transcript containing the echoed command, a
jump-prompt line, a timestamp line and the closing target prompt. -/
theorem c9_jump_sanitize_witness :
    PyStr.endsWithC ("SW1#".toList) '#' = true ∧
    (([("SW1# show version".toList : Str), "Cisco IOS".toList, "JUMP#".toList,
       "01:40 AM".toList, "SW1#".toList].filter
        fun ln => PyStr.containsSub (PyStr.rstrip ln) ("show version".toList)).length ≤ 1) ∧
    ("JUMP#".toList : Str) ≠ [] ∧
    ∀ s ∈ Views.sanitizeLines ("show version".toList) ("SW1#".toList)
        (some ("JUMP#".toList)) ["ssh admin@10.0.0.1".toList]
        [("SW1# show version".toList : Str), "Cisco IOS".toList, "JUMP#".toList,
         "01:40 AM".toList, "SW1#".toList] false,
      PyStr.containsSub s ("show version".toList) = false ∧
      PyStr.strip s ≠ "SW1#".toList ∧ PyStr.strip s ≠ "JUMP#".toList :=
  ⟨by decide, by decide, by decide,
   c9_jump_sanitize
     [("SW1# show version".toList : Str), "Cisco IOS".toList, "JUMP#".toList,
      "01:40 AM".toList, "SW1#".toList]
     ("show version".toList) ("SW1#".toList) ("JUMP#".toList)
     ["ssh admin@10.0.0.1".toList] (by decide) (by decide) (by decide)⟩

end SanitizeTheorems

section DetectLoopTheorems

/-- Auxiliary: in a graph with no self-loop and no proper cycle, the DFS can
never find a back edge from the current node to a non-parent node of the
current path. -/
theorem dfs_no_back_edge (g : Monitor.Graph)
    (hself : ∀ a, ¬Monitor.edgeG g a a)
    (hcyc : ∀ c, ¬Monitor.ProperCycle g c)
    (n : Str) (p : Option Str) (path : List Str) (nxt : Str)
    (hgood : Monitor.GoodPath g n p path) (hmem : nxt ∈ path)
    (hpar : ¬some nxt = p) (hedge : Monitor.edgeG g n nxt) : False := by
  obtain ⟨hne, hlast, hnodup, hchain, hp⟩ := hgood
  obtain ⟨l₁, l₂, rfl⟩ := List.append_of_mem hmem
  cases l₂ with
  | nil =>
    have hxn : nxt = n := by
      have hcc : (l₁ ++ [nxt]).getLast? = some nxt := by simp
      rw [hcc] at hlast
      exact Option.some.inj hlast
    exact hself n (hxn ▸ hedge)
  | cons x l₂' =>
    cases l₂' with
    | nil =>
      have hassoc : l₁ ++ [nxt, x] = (l₁ ++ [nxt]) ++ [x] := by simp
      have hxn : x = n := by
        rw [hassoc, List.getLast?_concat] at hlast
        exact Option.some.inj hlast
      cases p with
      | none =>
        have hlen : (l₁ ++ [nxt, x]).length = 1 := by rw [hp]; rfl
        simp at hlen
      | some q =>
        have hdrop : (l₁ ++ [nxt, x]).dropLast = l₁ ++ [nxt] := by
          rw [hassoc, List.dropLast_concat]
        rw [hdrop, List.getLast?_concat] at hp
        exact hpar (by rw [Option.some.inj hp])
    | cons y l₂'' =>
      apply hcyc (nxt :: x :: y :: l₂'')
      refine ⟨by simp, ?_, ?_, ?_⟩
      · exact (List.nodup_append.mp hnodup).2.1
      · exact ((List.chain'_append.mp hchain)).2.1
      · refine ⟨nxt, n, rfl, ?_, hedge⟩
        rw [← hlast]
        have : (x :: y :: l₂'' : List Str) ≠ [] := by simp
        rw [List.getLast?_append_of_ne_nil l₁ (by simp)]

/-- Auxiliary: under the same hypotheses the DFS never appends a cycle — the
`cycles` component of the state is preserved by every visit launched from a
valid path. -/
theorem dfsVisit_no_new_cycles (g : Monitor.Graph)
    (hself : ∀ a, ¬Monitor.edgeG g a a)
    (hcyc : ∀ c, ¬Monitor.ProperCycle g c) :
    ∀ (fuel : ℕ) (n : Str) (p : Option Str) (path : List Str) (st : Monitor.DfsSt),
      Monitor.GoodPath g n p path →
      (Monitor.dfsVisit g fuel n p path st).2 = st.2 := by
  intro fuel
  induction fuel with
  | zero => intro n p path st _; rfl
  | succ f ihf =>
    intro n p path st hgood
    have heq : Monitor.dfsVisit g (Nat.succ f) n p path st =
        (Monitor.lookupNbrs g n).foldl
          (fun st' nxt =>
            if some nxt = p then st'
            else if nxt ∈ path then
              (st'.1, st'.2 ++ [(nxt, n, Monitor.sufFrom path nxt ++ [nxt])])
            else if nxt ∈ st'.1 then st'
            else Monitor.dfsVisit g f nxt (some n) (path ++ [nxt]) st')
          (n :: st.1, st.2) := rfl
    rw [heq]
    have key : ∀ (ns : List Str), (∀ x ∈ ns, Monitor.edgeG g n x) →
        ∀ st' : Monitor.DfsSt,
          (ns.foldl
            (fun st' nxt =>
              if some nxt = p then st'
              else if nxt ∈ path then
                (st'.1, st'.2 ++ [(nxt, n, Monitor.sufFrom path nxt ++ [nxt])])
              else if nxt ∈ st'.1 then st'
              else Monitor.dfsVisit g f nxt (some n) (path ++ [nxt]) st')
            st').2 = st'.2 := by
      intro ns
      induction ns with
      | nil => intro _ st'; rfl
      | cons nxt rest ihl =>
        intro hall st'
        have hx : Monitor.edgeG g n nxt := hall nxt (List.mem_cons_self nxt rest)
        have hrest : ∀ x ∈ rest, Monitor.edgeG g n x :=
          fun x hxr => hall x (List.mem_cons_of_mem nxt hxr)
        simp only [List.foldl_cons]
        by_cases h1 : some nxt = p
        · rw [if_pos h1]
          exact ihl hrest st'
        · rw [if_neg h1]
          by_cases h2 : nxt ∈ path
          · exact absurd (dfs_no_back_edge g hself hcyc n p path nxt hgood h2 h1 hx) id
          · rw [if_neg h2]
            by_cases h3 : nxt ∈ st'.1
            · rw [if_pos h3]
              exact ihl hrest st'
            · rw [if_neg h3]
              have hgood' : Monitor.GoodPath g nxt (some n) (path ++ [nxt]) := by
                obtain ⟨hne, hlast, hnodup, hchain, _⟩ := hgood
                refine ⟨by simp, List.getLast?_concat _, ?_, ?_, ?_⟩
                · rw [List.nodup_append]
                  exact ⟨hnodup, List.nodup_singleton _,
                    fun a ha hb => h2 ((List.mem_singleton.mp hb) ▸ ha)⟩
                · refine List.chain'_append.mpr ⟨hchain, List.chain'_singleton _, ?_⟩
                  intro a ha b hb
                  rw [hlast] at ha
                  have ha' : n = a := by simpa using ha
                  have hb' : nxt = b := by simpa using hb
                  rw [← ha', ← hb']
                  exact hx
                · show (path ++ [nxt]).dropLast.getLast? = some n
                  rw [List.dropLast_concat]
                  exact hlast
              rw [ihl hrest (Monitor.dfsVisit g f nxt (some n) (path ++ [nxt]) st')]
              exact ihf nxt (some n) (path ++ [nxt]) st' hgood'
    exact key (Monitor.lookupNbrs g n) (fun x hx => hx) (n :: st.1, st.2)

/-- Auxiliary: a tree-shaped graph yields no detected loop, for the outer
loop over all keys. -/
theorem detectLoops_tree_nil (g : Monitor.Graph) (ht : Monitor.TreeShaped g) :
    Monitor.detectLoops g = [] := by
  obtain ⟨hself, hcyc⟩ := ht
  unfold Monitor.detectLoops
  suffices h : ∀ (ks : List Str) (st : Monitor.DfsSt), st.2 = [] →
      (ks.foldl
        (fun st n => if n ∈ st.1 then st
          else Monitor.dfsVisit g (Monitor.fuelFor g) n none [n] st) st).2 = [] by
    exact h _ ([], []) rfl
  intro ks
  induction ks with
  | nil => intro st h; exact h
  | cons n rest ih =>
    intro st h
    simp only [List.foldl_cons]
    by_cases hmem : n ∈ st.1
    · rw [if_pos hmem]
      exact ih st h
    · rw [if_neg hmem]
      apply ih
      rw [dfsVisit_no_new_cycles g hself hcyc (Monitor.fuelFor g) n none [n] st
        ⟨by simp, rfl, List.nodup_singleton n, List.chain'_singleton n, rfl⟩]
      exact h

/-- Claim C5: on the neighbor graph `{A:{B}, B:{C}, C:{A}}`, `detect_loops`
returns exactly one cycle, whose path visits exactly the node set
`{A, B, C}`; and on every acyclic, tree-shaped neighbor graph (no self-loop,
no directed cycle of three or more distinct nodes — which covers both a
directed tree and the symmetric adjacency of an undirected tree) it returns
no cycle. -/
theorem c5_detect_loops :
    (Monitor.detectLoops
        [("A".toList, ["B".toList]), ("B".toList, ["C".toList]),
         ("C".toList, ["A".toList])] =
      [("A".toList, "C".toList,
        ["A".toList, "B".toList, "C".toList, "A".toList])] ∧
     (["A".toList, "B".toList, "C".toList, "A".toList] : List Str).toFinset =
       {"A".toList, "B".toList, "C".toList}) ∧
    (∀ g : Monitor.Graph, Monitor.TreeShaped g → Monitor.detectLoops g = []) :=
  ⟨⟨by decide, by decide⟩, fun g hg => detectLoops_tree_nil g hg⟩

/-- Witness for C5: the single-edge graph `{A:{B}}` is tree-shaped and
produces no cycle. -/
theorem c5_detect_loops_witness :
    Monitor.TreeShaped [("A".toList, ["B".toList])] ∧
    Monitor.detectLoops [("A".toList, ["B".toList])] = [] := by
  have hedge : ∀ x y, Monitor.edgeG [("A".toList, ["B".toList])] x y →
      x = "A".toList ∧ y = "B".toList := by
    intro x y h
    simp only [Monitor.edgeG, Monitor.lookupNbrs] at h
    by_cases hA : "A".toList = x
    · rw [if_pos hA] at h
      exact ⟨hA.symm, by simpa using h⟩
    · rw [if_neg hA] at h
      simp at h
  have ht : Monitor.TreeShaped [("A".toList, ["B".toList])] := by
    constructor
    · intro a h
      obtain ⟨h1, h2⟩ := hedge a a h
      rw [h1] at h2
      exact absurd h2 (by decide)
    · intro c hc
      obtain ⟨hlen, _, hchain, _⟩ := hc
      match c, hlen with
      | c1 :: c2 :: c3 :: rest, _ =>
        have h12 : Monitor.edgeG [("A".toList, ["B".toList])] c1 c2 :=
          (List.chain'_cons.mp hchain).1
        have h23 : Monitor.edgeG [("A".toList, ["B".toList])] c2 c3 :=
          (List.chain'_cons.mp (List.chain'_cons.mp hchain).2).1
        have hb : c2 = "B".toList := (hedge c1 c2 h12).2
        have ha : c2 = "A".toList := (hedge c2 c3 h23).1
        rw [hb] at ha
        exact absurd ha (by decide)
  exact ⟨ht, (c5_detect_loops.2 [("A".toList, ["B".toList])] ht)⟩

end DetectLoopTheorems

section ResolverTheorems

/-- Auxiliary: association lookup success yields a stored pair. -/
theorem lookupReg_mem : ∀ (devs : Resolver.Registry) (a : Str) (r : Resolver.RRec),
    Resolver.lookupReg devs a = some r → (a, r) ∈ devs := by
  intro devs
  induction devs with
  | nil => intro a r h; exact absurd h (by simp [Resolver.lookupReg])
  | cons kv rest ih =>
    intro a r h
    simp only [Resolver.lookupReg] at h
    by_cases hk : kv.1 = a
    · rw [if_pos hk] at h
      have : kv = (a, r) := by
        cases kv
        simp_all
      exact this ▸ List.mem_cons_self kv rest
    · rw [if_neg hk] at h
      exact List.mem_cons_of_mem kv (ih a r h)

/-- Auxiliary: when no stored record carries an `alias` key, a successful
`_attach_alias(a, devices.get(a))` returns the stored record with exactly the
registry key attached. -/
theorem attach_success (devs : Resolver.Registry)
    (hno : ∀ kv ∈ devs, (kv.2 : Resolver.RRec).aliasF = none)
    (a : Str) (r : Resolver.RRec)
    (h : Resolver.attachAlias a (Resolver.lookupReg devs a) = some r) :
    ∃ k r₀, Resolver.lookupReg devs k = some r₀ ∧
      r = { r₀ with aliasF := some k } := by
  cases hl : Resolver.lookupReg devs a with
  | none =>
    rw [hl] at h
    exact absurd h (by simp [Resolver.attachAlias])
  | some r₀ =>
    rw [hl] at h
    have hmem : (a, r₀) ∈ devs := lookupReg_mem devs a r₀ hl
    have hnone : r₀.aliasF = none := hno (a, r₀) hmem
    refine ⟨a, r₀, hl, ?_⟩
    rw [Resolver.attachAlias, if_pos hnone] at h
    exact (Option.some.inj h).symm

/-- Auxiliary: step 5 only returns records through `_attach_alias`. -/
theorem resolveStep5_success (devs : Resolver.Registry) (q : Str)
    (hno : ∀ kv ∈ devs, (kv.2 : Resolver.RRec).aliasF = none) :
    ∀ r, (Resolver.resolveStep5 devs q).1 = some r →
      ∃ k r₀, Resolver.lookupReg devs k = some r₀ ∧
        r = { r₀ with aliasF := some k } := by
  intro r hr
  simp only [Resolver.resolveStep5] at hr
  split at hr
  · split at hr
    · split at hr
      · exact attach_success devs hno _ r hr
      · simp at hr
    · simp at hr
  · split at hr
    · simp at hr
    · simp at hr

/-- Auxiliary: step 4 only returns records through `_attach_alias`. -/
theorem resolveStep4_success (devs : Resolver.Registry) (q : Str)
    (hno : ∀ kv ∈ devs, (kv.2 : Resolver.RRec).aliasF = none) :
    ∀ r, (Resolver.resolveStep4 devs q).1 = some r →
      ∃ k r₀, Resolver.lookupReg devs k = some r₀ ∧
        r = { r₀ with aliasF := some k } := by
  intro r hr
  simp only [Resolver.resolveStep4] at hr
  split at hr
  · split at hr
    · split at hr
      · exact attach_success devs hno _ r hr
      · exact resolveStep5_success devs q hno r hr
    · exact resolveStep5_success devs q hno r hr
  · split at hr
    · simp at hr
    · exact resolveStep5_success devs q hno r hr

/-- Claim C10 counterexample: with a registry holding only `UKLONB2SW5`
(stored without an `alias` key), the query `UKLONB2SW9` resolves through the
structured-grammar narrowing path, which returns the stored record directly
(`return devices[cands[0]]`, device_resolver.py line 195) without attaching
the alias — the returned record has no `alias` key. -/
theorem c10_counterexample :
    (Resolver.resolveDevice
      [("UKLONB2SW5".toList, ⟨none, some ("10.0.0.9".toList), []⟩)]
      ("UKLONB2SW9".toList)).1 =
      some ⟨none, some ("10.0.0.9".toList), []⟩ ∧
    (⟨none, some ("10.0.0.9".toList), []⟩ : Resolver.RRec).aliasF = none := by
  exact ⟨by decide, rfl⟩

/-- Claim C10 (amended): assuming stored records carry no `alias` key (as the
source notes of devices.json) and the query does not enter the
structured-grammar narrowing path, every record returned on the success path
of `resolve_device` is a stored record with its registry key attached as
`alias`, and every record returned by `find_device_by_host` carries the
registry key under which it was found; the narrowing path alone returns the
stored record without an alias (see the counterexample). -/
theorem c10_alias_attachment (devs : Resolver.Registry) (q : Str)
    (hno : ∀ kv ∈ devs, (kv.2 : Resolver.RRec).aliasF = none)
    (hnouk : Resolver.searchUK (PyStr.upper (PyStr.strip q)) = none) :
    (∀ r, (Resolver.resolveDevice devs q).1 = some r →
      ∃ k r₀, Resolver.lookupReg devs k = some r₀ ∧
        r = { r₀ with aliasF := some k }) ∧
    (∀ h al r, Resolver.findDeviceByHost devs h = (some al, some r) →
      r.aliasF = some al) := by
  constructor
  · intro r hr
    simp only [Resolver.resolveDevice] at hr
    split at hr
    · simp at hr
    · split at hr
      · simp at hr
      · split at hr
        · exact attach_success devs hno _ r hr
        · split at hr
          · simp at hr
          · split at hr
            · exact attach_success devs hno _ r hr
            · split at hr
              · simp at hr
              · have h3 : Resolver.resolveStep3 devs (PyStr.strip q)
                    (PyStr.upper (PyStr.strip q)) =
                    Resolver.resolveStep4 devs (PyStr.strip q) := by
                  simp only [Resolver.resolveStep3, hnouk]
                rw [h3] at hr
                exact resolveStep4_success devs (PyStr.strip q) hno r hr
  · intro h al r hr
    simp only [Resolver.findDeviceByHost] at hr
    split at hr
    · simp at hr
    · split at hr
      · rename_i kv hkv
        have h1 : some kv.1 = some al := congrArg Prod.fst hr
        have h2 : Resolver.attachAlias kv.1 (some kv.2) = some r := congrArg Prod.snd hr
        have hmem : kv ∈ devs := List.mem_of_find?_eq_some hkv
        have hnone : kv.2.aliasF = none := hno kv hmem
        rw [Resolver.attachAlias, if_pos hnone] at h2
        have hre := Option.some.inj h2
        rw [← hre]
        rw [Option.some.inj h1]
      · simp at hr

/-- Witness for C10 (amended) on a registry without stored alias keys. -/
theorem c10_alias_attachment_witness :
    (∀ kv ∈ ([("INVIJB1SW1".toList,
        (⟨none, some ("10.0.0.2".toList), ["10.0.1.2".toList]⟩ : Resolver.RRec))] :
        Resolver.Registry), (kv.2 : Resolver.RRec).aliasF = none) ∧
    Resolver.searchUK
      (PyStr.upper (PyStr.strip ("show interfaces on INVIJB1SW1".toList))) = none ∧
    ((∀ r, (Resolver.resolveDevice
        [("INVIJB1SW1".toList, ⟨none, some ("10.0.0.2".toList), ["10.0.1.2".toList]⟩)]
        ("show interfaces on INVIJB1SW1".toList)).1 = some r →
      ∃ k r₀, Resolver.lookupReg
          [("INVIJB1SW1".toList, ⟨none, some ("10.0.0.2".toList), ["10.0.1.2".toList]⟩)]
          k = some r₀ ∧ r = { r₀ with aliasF := some k }) ∧
    (∀ h al r, Resolver.findDeviceByHost
        [("INVIJB1SW1".toList, ⟨none, some ("10.0.0.2".toList), ["10.0.1.2".toList]⟩)]
        h = (some al, some r) → r.aliasF = some al)) :=
  ⟨by decide, by decide,
   c10_alias_attachment
     [("INVIJB1SW1".toList, ⟨none, some ("10.0.0.2".toList), ["10.0.1.2".toList]⟩)]
     ("show interfaces on INVIJB1SW1".toList) (by decide) (by decide)⟩

end ResolverTheorems

section AmbiguityTheorems

/-- Auxiliary: a list containing two distinct elements has length at least
two. -/
theorem two_mem_le_length {α : Type} (l : List α) (a b : α) (ha : a ∈ l)
    (hb : b ∈ l) (hab : a ≠ b) : 2 ≤ l.length := by
  cases l with
  | nil => simp at ha
  | cons x t =>
    cases t with
    | nil =>
      have ha' : a = x := by simpa using ha
      have hb' : b = x := by simpa using hb
      exact absurd (ha'.trans hb'.symm) hab
    | cons y u => simp only [List.length_cons]; omega

/-- Claim C4 counterexample: the query "vijayawada or london UKLONB2SW9",
against a registry holding `UKLONB2SW5` and `INVIJB1SW1`, carries location
keywords from both sites (its fuzzy hits map to both site representatives)
and matches no registry alias directly and no canonical phrase — yet
`resolve_device` silently returns the single `UKLONB2SW5` record, with no
candidates and no error, through the structured-grammar prefix-narrowing
branch (device_resolver.py line 195).  So two-site queries are not always
reported as ambiguous. -/
theorem c4_counterexample :
    ("UKLONB1SW2".toList ∈ Resolver.mappedAliases
        (PyStr.strip ("vijayawada or london UKLONB2SW9".toList))) ∧
    ("INVIJB1SW1".toList ∈ Resolver.mappedAliases
        (PyStr.strip ("vijayawada or london UKLONB2SW9".toList))) ∧
    ((Resolver.regKeys
        [("UKLONB2SW5".toList, ⟨none, some ("10.0.0.5".toList), []⟩),
         ("INVIJB1SW1".toList, ⟨none, some ("10.0.0.2".toList), []⟩)]).filter
        (fun al => PyStr.containsSub
          (PyStr.upper (PyStr.strip ("vijayawada or london UKLONB2SW9".toList))) al) =
      []) ∧
    (Resolver.phraseHits (PyStr.strip ("vijayawada or london UKLONB2SW9".toList)) = []) ∧
    Resolver.resolveDevice
      [("UKLONB2SW5".toList, ⟨none, some ("10.0.0.5".toList), []⟩),
       ("INVIJB1SW1".toList, ⟨none, some ("10.0.0.2".toList), []⟩)]
      ("vijayawada or london UKLONB2SW9".toList) =
      (some ⟨none, some ("10.0.0.5".toList), []⟩, [], none) := by
  refine ⟨by decide, by decide, by decide, by decide, by decide⟩

/-- Claim C4 (amended): when a query's fuzzy location hits map to both the
UK and the India site, no direct alias or canonical phrase decided
resolution earlier, *and the query does not match the structured alias
grammar* (whose prefix-narrowing can silently pick a single device — see the
counterexample), `resolve_device` reports ambiguity: it returns no device,
the error "Multiple location matches", and the non-empty candidate list
holding exactly one representative alias per site (the registry's preferred
alias of each site, both assumed present). -/
theorem c4_two_site_ambiguity (devs : Resolver.Registry) (q : Str)
    (hne : devs.isEmpty = false)
    (hq : ¬PyStr.strip q = [])
    (hdirect : (Resolver.regKeys devs).filter
        (fun al => PyStr.containsSub (PyStr.upper (PyStr.strip q)) al) = [])
    (hphrase : Resolver.phraseHits (PyStr.strip q) = [])
    (hnouk : Resolver.searchUK (PyStr.upper (PyStr.strip q)) = none)
    (hukhit : "UKLONB1SW2".toList ∈ Resolver.mappedAliases (PyStr.strip q))
    (hinhit : "INVIJB1SW1".toList ∈ Resolver.mappedAliases (PyStr.strip q))
    (hukreg : Resolver.containsKey devs ("UKLONB1SW2".toList) = true)
    (hinreg : Resolver.containsKey devs ("INVIJB1SW1".toList) = true) :
    Resolver.resolveDevice devs q =
      (none, ["UKLONB1SW2".toList, "INVIJB1SW1".toList],
       some ("Multiple location matches".toList)) := by
  have hlen2 : 2 ≤ (Resolver.mappedAliases (PyStr.strip q)).length :=
    two_mem_le_length _ _ _ hukhit hinhit (by decide)
  have h41 : ¬(Resolver.mappedAliases (PyStr.strip q)).length = 1 := by omega
  have h42 : 1 < (Resolver.mappedAliases (PyStr.strip q)).length := by omega
  have hbUk : Resolver.bestUkAlias devs = some ("UKLONB1SW2".toList) := by
    simp only [Resolver.bestUkAlias]
    rw [if_pos hukreg]
  have hbIn : Resolver.bestInAlias devs = some ("INVIJB1SW1".toList) := by
    simp only [Resolver.bestInAlias]
    rw [if_pos hinreg]
  have hstep4 : Resolver.resolveStep4 devs (PyStr.strip q) =
      (none, ["UKLONB1SW2".toList, "INVIJB1SW1".toList],
       some ("Multiple location matches".toList)) := by
    simp only [Resolver.resolveStep4]
    rw [if_neg h41, if_pos h42, hbUk, hbIn]
    simp
  have hstep3 : Resolver.resolveStep3 devs (PyStr.strip q)
      (PyStr.upper (PyStr.strip q)) = Resolver.resolveStep4 devs (PyStr.strip q) := by
    simp only [Resolver.resolveStep3, hnouk]
  simp only [Resolver.resolveDevice]
  rw [if_neg (by simp [hne]), if_neg hq]
  simp only [hdirect, List.length_nil]
  rw [if_neg (by norm_num), if_neg (by norm_num)]
  simp only [hphrase, List.length_nil]
  rw [if_neg (by norm_num), if_neg (by norm_num)]
  rw [hstep3, hstep4]

/-- Witness for C4: "compare london and vijayawada" against a registry
holding both preferred site aliases resolves to the two-representative
ambiguity outcome. -/
theorem c4_two_site_ambiguity_witness :
    (([("UKLONB1SW2".toList,
         (⟨none, some ("10.0.0.1".toList), []⟩ : Resolver.RRec)),
       ("INVIJB1SW1".toList, ⟨none, some ("10.0.0.2".toList), []⟩)] :
        Resolver.Registry).isEmpty = false) ∧
    Resolver.resolveDevice
      [("UKLONB1SW2".toList, ⟨none, some ("10.0.0.1".toList), []⟩),
       ("INVIJB1SW1".toList, ⟨none, some ("10.0.0.2".toList), []⟩)]
      ("compare london and vijayawada".toList) =
      (none, ["UKLONB1SW2".toList, "INVIJB1SW1".toList],
       some ("Multiple location matches".toList)) :=
  ⟨by decide,
   c4_two_site_ambiguity
     [("UKLONB1SW2".toList, ⟨none, some ("10.0.0.1".toList), []⟩),
      ("INVIJB1SW1".toList, ⟨none, some ("10.0.0.2".toList), []⟩)]
     ("compare london and vijayawada".toList)
     (by decide) (by decide) (by decide) (by decide) (by decide)
     (by decide) (by decide) (by decide) (by decide)⟩

end AmbiguityTheorems
